import Mathlib

/-!
# microtest.h

A shallow embedding of `src/microtest/microtest.h`: the assertion macros, the
registry kept by `mt::TestsManager`, the run loop `RunAllTests` and the `main`
that `TEST_MAIN()` generates.

Conventions of the embedding.

* A test body `void (*fn)(void)` acts on the globals of the process.  The part
  of them owned by user code is a state of an arbitrary type `σ`; a call maps
  the state before to what the body wrote, the state after, and the way control
  left the body.  The registry itself is not part of `σ`: bodies do not register
  tests (registration happens in the initialisers written by `TEST`).
* Output is a log of writes in program order, each tagged with its stream.
  What `fprintf` is asked to print is kept as a structured `Line`;
  `Line.text` gives the characters for the lines whose format has no
  floating-point conversion.
* `size_t` is a natural number below `SIZE_MAX + 1`; `++num_failed` wraps.
* Two ghost values record what the program does but does not hand out: the
  entries whose body has been called, and the value of the local `num_failed`
  when control leaves `RunAllTests`.
-/

namespace mt

/-! ## Streams and lines -/

/-- The streams a `FILE*` can name. -/
inductive FILE where
  | stdout
  | stderr
  | other (handle : Nat)
  deriving DecidableEq, Repr

/-- What one output call prints: the `fprintf` format in use, with its arguments. -/
inductive Line where
  /-- Format `"%s{ running}%s %s\n"` of `printRunning`. -/
  | running (message : String)
  /-- Format `"%s{      ok}%s %s\n"` of `printOk`. -/
  | ok (message : String)
  /-- Format `"%s{  failed} %s%s\n"` of `printFailed`. -/
  | failed (message : String)
  /-- Format `"\t%sAssertion failed: %s%s\n"` in the handler of `RunAllTests`. -/
  | assertionFailed (what : String)
  /-- Format `"%s{ summary} All tests succeeded!%s\n"` of `main`. -/
  | summarySucceeded
  /-- Format `"%s{ summary} %lu tests failed (%.2f%%)%s\n"` of `main`: `%lu` is
  `num_failed`, `%.2f` is `100.0 * num_failed / size`. -/
  | summaryFailed (num_failed : Nat) (size : Nat)
  /-- Text written by user code (a test body, or an assertion macro in it). -/
  | fromBody (text : String)
  deriving DecidableEq, Repr

/-- One write: the stream and what was printed on it. -/
structure Write where
  file : FILE
  line : Line
  deriving DecidableEq, Repr

/-- Function `mt::green()`. -/
def green : String := "\x1b[0;32m"

/-- Function `mt::red()`. -/
def red : String := "\x1b[1;31m"

/-- Function `mt::def()`. -/
def def_ : String := "\x1b[0m"

/-- The characters of a line, for the formats without a floating-point conversion. -/
def Line.text : Line → Option String
  | .running message => some (green ++ "\x7b running\x7d" ++ def_ ++ " " ++ message ++ "\n")
  | .ok message => some (green ++ "\x7b      ok\x7d" ++ def_ ++ " " ++ message ++ "\n")
  | .failed message => some (red ++ "\x7b  failed\x7d " ++ message ++ def_ ++ "\n")
  | .assertionFailed what => some ("\t" ++ red ++ "Assertion failed: " ++ what ++ def_ ++ "\n")
  | .summarySucceeded => some (green ++ "\x7b summary\x7d All tests succeeded!" ++ def_ ++ "\n")
  | .summaryFailed _ _ => none
  | .fromBody text => some text

/-- Function `mt::printRunning(message, file)`. -/
def printRunning (message : String) (file : FILE) : Write := ⟨file, .running message⟩

/-- Function `mt::printOk(message, file)`. -/
def printOk (message : String) (file : FILE) : Write := ⟨file, .ok message⟩

/-- Function `mt::printFailed(message, file)`. -/
def printFailed (message : String) (file : FILE) : Write := ⟨file, .failed message⟩

/-! ## The exception -/

/-- Class `mt::AssertFailedException`: the exception thrown when an assertion fails. -/
structure AssertFailedException where
  description_ : String
  deriving DecidableEq, Repr

/-- Method `AssertFailedException::what()`. -/
def AssertFailedException.what (e : AssertFailedException) : String := e.description_

/-! ## Assertions

The assertion macros are statements.  Their arguments are expressions, taken
to bind tighter than the operators the replacement lists put around them.
`ASSERT_TRUE`, `ASSERT`, `ASSERT_FALSE` and `ASSERT_STREQ` evaluate each
argument once: for them the embedding keeps of an argument its text and the
value of that evaluation (`Arg`).  `ASSERT_EQ` evaluates each argument up to
three times and compares with the operators of the value type: for it an
argument is an expression evaluated in the user state (`Expr`), and the
operators are given (`Ops`). -/

/-- A macro argument.  `spelling` is what the `#` operator makes of the
argument as written at the call; `expansion` is what `#` makes of it once the
macros named in the argument have been replaced (the same text when the
argument names no macro); `value` is what the expression evaluates to. -/
structure Arg (α : Type) where
  spelling : String
  expansion : String
  value : α

/-- An argument that names no macro. -/
def Arg.plain {α : Type} (text : String) (value : α) : Arg α := ⟨text, text, value⟩

/-- The argument as it stands after being substituted for a parameter that is
not an operand of `#` or `##`: such a parameter is replaced by the argument
with all macros in it expanded, so the tokens that reach the next macro are
those of `expansion`. -/
def Arg.prescan {α : Type} (a : Arg α) : Arg α := ⟨a.expansion, a.expansion, a.value⟩

/-- The operators of the value type that `ASSERT_EQ` applies to its arguments:
`operator==`, `operator!=`, and `operator<<` into `std::cout`.  Nothing relates
the three: `==` need not be reflexive (an IEEE NaN is not equal to itself), and
`!=` of a class type is a function of its own. -/
structure Ops (α : Type) where
  eq : α → α → Bool
  ne : α → α → Bool
  print : α → String

/-- An argument of `ASSERT_EQ`: its texts as in `Arg`, and what one evaluation
of the expression in a user state yields: a value and the user state after it
(`i++` yields the old `i` and leaves `i + 1`). -/
structure Expr (σ α : Type) where
  spelling : String
  expansion : String
  eval : σ → α × σ

/-- An argument that names no macro and is a constant: a literal. -/
def Expr.plain {σ α : Type} (text : String) (value : α) : Expr σ α :=
  ⟨text, text, fun s => (value, s)⟩

/-- Both operands of `a != b`, of `a == b`, or of the `<<` chain evaluated in
state `s`, the left one first: the two values and the state after both.  The
order is fixed by C++17 for `<<` and unspecified for the comparisons; it matters
only when both arguments act on the same state. -/
def evalBoth {σ α : Type} (a b : Expr σ α) (s : σ) : α × α × σ :=
  ((a.eval s).1, (b.eval (a.eval s).2).1, (b.eval (a.eval s).2).2)

/-- The expression `a == b` of a replacement list, on operands that have been
evaluated; `eq` is `operator==` of the value type. -/
def Arg.eq {α : Type} (eq : α → α → Bool) (a b : Arg α) : Arg Bool :=
  ⟨a.spelling ++ " == " ++ b.spelling, a.expansion ++ " == " ++ b.expansion,
   eq a.value b.value⟩

/-- What executing an assertion statement does: the text it sends to
`std::cout`, and the exception it throws (`none`: control continues with the
next statement). -/
structure Effect where
  cout : List String
  thrown : Option AssertFailedException
  deriving DecidableEq, Repr

/-- Macro `ASSERT_TRUE(cond)`: `if (!(cond)) throw mt::AssertFailedException(#cond);` -/
def ASSERT_TRUE (cond : Arg Bool) : Effect :=
  if !cond.value then ⟨[], some ⟨cond.spelling⟩⟩ else ⟨[], none⟩

/-- Macro `ASSERT(cond)`: `ASSERT_TRUE(cond);` with `cond` substituted after its
macro expansion. -/
def ASSERT (cond : Arg Bool) : Effect :=
  ASSERT_TRUE cond.prescan

/-- Macro `ASSERT_FALSE(cond)`: `if (cond) throw mt::AssertFailedException(#cond);` -/
def ASSERT_FALSE (cond : Arg Bool) : Effect :=
  if cond.value then ⟨[], some ⟨cond.spelling⟩⟩ else ⟨[], none⟩

/-- Function `traits_type::compare` over the first `n` characters: the sign of the first
difference, characters ordered by their code. -/
def traits_compare : List Char → List Char → Nat → Int
  | c :: cs, d :: ds, n + 1 =>
    if c.toNat < d.toNat then -1
    else if d.toNat < c.toNat then 1
    else traits_compare cs ds n
  | _, _, _ => 0

/-- Method `std::string(a).compare(std::string(b))`: the common prefix decides, then the sizes. -/
def string_compare (a b : String) : Int :=
  let r := traits_compare a.data b.data (min a.length b.length)
  if r ≠ 0 then r
  else if a.length < b.length then -1
  else if b.length < a.length then 1
  else 0

/-- Macro `ASSERT_STREQ(a, b)`:
`if (std::string(a).compare(std::string(b)) != 0) throw mt::AssertFailedException(#a " == " #b)` -/
def ASSERT_STREQ (a b : Arg String) : Effect :=
  if string_compare a.value b.value ≠ 0 then
    ⟨[], some ⟨a.spelling ++ " == " ++ b.spelling⟩⟩
  else ⟨[], none⟩

/-- Macro `ASSERT_EQ(a, b)`, executed in user state `s`: what the statement
does, and the user state after it.
`if (a != b) { std::cout << "Actual values: " << a << " != " << b << std::endl; }`
evaluates both arguments for the test and, when the test holds, once more for
the output; `ASSERT(a == b);` evaluates them again.  `a` and `b` stand outside
`#` in the replacement list, so their texts arrive expanded. -/
def ASSERT_EQ {σ α : Type} (ops : Ops α) (a b : Expr σ α) (s : σ) : Effect × σ :=
  -- if (a != b)
  let tested := evalBoth a b s
  let differ := ops.ne tested.1 tested.2.1
  -- std::cout << "Actual values: " << a << " != " << b << std::endl;
  let printed := evalBoth a b tested.2.2
  let diagnostic :=
    if differ then
      ["Actual values: " ++ ops.print printed.1 ++ " != " ++ ops.print printed.2.1 ++ "\n"]
    else []
  let s2 := if differ then printed.2.2 else tested.2.2
  -- ASSERT(a == b);
  let compared := evalBoth a b s2
  let r := ASSERT (Arg.eq ops.eq
    (⟨a.spelling, a.expansion, compared.1⟩ : Arg α).prescan
    (⟨b.spelling, b.expansion, compared.2.1⟩ : Arg α).prescan)
  (⟨diagnostic ++ r.cout, r.thrown⟩, compared.2.2)

/-- The expression `!(cond)`: the negated condition. -/
def Arg.not (cond : Arg Bool) : Arg Bool :=
  ⟨"!(" ++ cond.spelling ++ ")", "!(" ++ cond.expansion ++ ")", !cond.value⟩

/-- The spec's reading of `AssertFalse`: "defined purely in terms of
`AssertTrue` with a transformed condition (negation)". -/
def ASSERT_FALSE_spec (cond : Arg Bool) : Effect :=
  ASSERT_TRUE cond.not

/-! ## Test bodies and the registry -/

/-- How control leaves a test body. -/
inductive Outcome where
  /-- The body returns normally. -/
  | returns
  /-- An `AssertFailedException` propagates out of the body. -/
  | throwsAssertFailed (e : AssertFailedException)
  /-- Something that is not an `AssertFailedException` propagates out of the body. -/
  | throwsOther (fault : String)
  deriving DecidableEq, Repr

/-- Whether the outcome is an `AssertFailedException`. -/
def Outcome.isAssertFailed : Outcome → Bool
  | .throwsAssertFailed _ => true
  | _ => false

/-- Whether the outcome is a fault that `catch (AssertFailedException&)` does not match. -/
def Outcome.isOther : Outcome → Bool
  | .throwsOther _ => true
  | _ => false

/-- One call of a test body: what it wrote (stream and text, in order), the
user state it leaves, and how control left it. -/
structure BodyResult (σ : Type) where
  writes : List (FILE × String)
  state : σ
  outcome : Outcome

/-- Struct `TestsManager::Test`. -/
structure Test (σ : Type) where
  name : String
  fn : σ → BodyResult σ

/-- The state of the process: the function-local static `tests_` behind
`TestsManager::tests()`, everything written so far, and the user state. -/
structure Process (σ : Type) where
  tests_ : List (Test σ)
  log : List Write
  user : σ

/-- Constant `SIZE_MAX` of an LP64 target (`%lu` prints a `size_t` in `main`). -/
def SIZE_MAX : Nat := 2 ^ 64 - 1

namespace TestsManager

/-- Function `TestsManager::tests()`. -/
def tests {σ : Type} (p : Process σ) : List (Test σ) := p.tests_

/-- Function `TestsManager::AddTest(fn, name)`: the value returned and the process afterwards. -/
def AddTest {σ : Type} (p : Process σ) (fn : σ → BodyResult σ) (name : String) :
    Bool × Process σ :=
  (true, ⟨tests p ++ [⟨name, fn⟩], p.log, p.user⟩)

/-- How control leaves `RunAllTests`. -/
inductive Completion where
  /-- Statement `return num_failed;` -/
  | returned (num_failed : Nat)
  /-- A fault thrown by a body passes through `RunAllTests` to its caller. -/
  | propagated (fault : String)
  deriving DecidableEq, Repr

/-- The local `num_failed`, the process, and (a ghost trace) the entries whose
`fn` has been called so far, in call order. -/
structure LoopState (σ : Type) where
  num_failed : Nat
  process : Process σ
  invoked : List (Test σ)

/-- What a call of `RunAllTests` leaves behind: how control left it, the
process, the ghost trace of called entries, and (a ghost as well) the value the
local `num_failed` had when control left the function. -/
structure RunResult (σ : Type) where
  completion : Completion
  process : Process σ
  invoked : List (Test σ)
  num_failed : Nat

/-- The `for (const Test& test : tests())` loop of `RunAllTests` over the
entries still to visit. -/
def loop {σ : Type} (file : FILE) : List (Test σ) → LoopState σ → RunResult σ
  | [], s => ⟨.returned s.num_failed, s.process, s.invoked, s.num_failed⟩
  | test :: rest, s =>
    -- printRunning(test.name, file);
    let log1 := s.process.log ++ [printRunning test.name file]
    -- (*test.fn)();
    let r := test.fn s.process.user
    let log2 := log1 ++ r.writes.map (fun w => (⟨w.1, .fromBody w.2⟩ : Write))
    let invoked := s.invoked ++ [test]
    match r.outcome with
    | .returns =>
      -- printOk(test.name, file);
      loop file rest
        ⟨s.num_failed, ⟨s.process.tests_, log2 ++ [printOk test.name file], r.state⟩, invoked⟩
    | .throwsAssertFailed e =>
      -- catch (AssertFailedException& e)
      loop file rest
        ⟨(s.num_failed + 1) % (SIZE_MAX + 1),
         ⟨s.process.tests_,
          log2 ++ [printFailed test.name file, ⟨file, .assertionFailed e.what⟩], r.state⟩,
         invoked⟩
    | .throwsOther fault =>
      -- no handler matches: the fault leaves the loop and the function
      ⟨.propagated fault, ⟨s.process.tests_, log2, r.state⟩, invoked, s.num_failed⟩

/-- Function `TestsManager::RunAllTests(file)`. -/
def RunAllTests {σ : Type} (p : Process σ) (file : FILE) : RunResult σ :=
  loop file (tests p) ⟨0, p, []⟩

end TestsManager

/-- How the `main` of `TEST_MAIN()` ends: the value it returns (`none` when a
fault leaves `main`), the process afterwards, and the operands
`(num_failed, tests().size())` of the percentage division when it was evaluated. -/
structure MainResult (σ : Type) where
  returned : Option Int
  process : Process σ
  division : Option (Nat × Nat)

/-- The `main` generated by `TEST_MAIN()`. -/
def TEST_MAIN {σ : Type} (p : Process σ) : MainResult σ :=
  let r := TestsManager.RunAllTests p FILE.stdout
  match r.completion with
  | .propagated _ => ⟨none, r.process, none⟩
  | .returned num_failed =>
    if num_failed = 0 then
      ⟨some 0,
       ⟨r.process.tests_, r.process.log ++ [⟨FILE.stdout, .summarySucceeded⟩], r.process.user⟩,
       none⟩
    else
      let size := (TestsManager.tests r.process).length
      ⟨some (-1),
       ⟨r.process.tests_, r.process.log ++ [⟨FILE.stderr, .summaryFailed num_failed size⟩],
        r.process.user⟩,
       some (num_failed, size)⟩

/-! ## Notions the statements use -/

/-- Macro `TEST(name)`: the initialiser of `__name` calls `AddTest(name, #name)`. -/
def TEST {σ : Type} (p : Process σ) (t : Test σ) : Process σ :=
  (TestsManager.AddTest p t.fn t.name).2

/-- The initialisers of `TEST(T1) ... TEST(Tn)` run in that order. -/
def register {σ : Type} (p : Process σ) : List (Test σ) → Process σ
  | [] => p
  | t :: ts => register (TEST p t) ts

/-- The outcomes of the bodies of `ts` when they are called one after the
other, the first from user state `u`. -/
def outcomes {σ : Type} : List (Test σ) → σ → List Outcome
  | [], _ => []
  | t :: ts, u => (t.fn u).outcome :: outcomes ts (t.fn u).state

/-- The test names of the `running` lines of a log, in order. -/
def runningNames (log : List Write) : List String :=
  log.filterMap fun w =>
    match w.line with
    | .running message => some message
    | _ => none

/-- The test names of the `ok` and `failed` lines of a log, in order. -/
def statusNames (log : List Write) : List String :=
  log.filterMap fun w =>
    match w.line with
    | .ok message => some message
    | .failed message => some message
    | _ => none

/-- A body that is a sequence of assertion statements: they run in order, and
the first exception leaves the body; what they print goes to `std::cout`. -/
def runStatements : List Effect → Effect
  | [] => ⟨[], none⟩
  | e :: es =>
    match e.thrown with
    | some x => ⟨e.cout, some x⟩
    | none => ⟨e.cout ++ (runStatements es).cout, (runStatements es).thrown⟩

/-- The test body `void name() { stmts }` whose statements are assertions. -/
def bodyOf {σ : Type} (stmts : List Effect) : σ → BodyResult σ := fun u =>
  let r := runStatements stmts
  ⟨r.cout.map (fun text => (FILE.stdout, text)), u,
   match r.thrown with
   | some e => .throwsAssertFailed e
   | none => .returns⟩

/-- What a list of statements prints when all of them are executed, in order. -/
def couts : List Effect → List String
  | [] => []
  | e :: es => e.cout ++ couts es

/-- A body whose statements act on the user state: they run in order, each
from the state the one before left, and the first exception leaves the body. -/
def runStatementsFrom {σ : Type} : List (σ → Effect × σ) → σ → Effect × σ
  | [], s => (⟨[], none⟩, s)
  | st :: rest, s =>
    match (st s).1.thrown with
    | some x => (⟨(st s).1.cout, some x⟩, (st s).2)
    | none =>
      (⟨(st s).1.cout ++ (runStatementsFrom rest (st s).2).1.cout,
        (runStatementsFrom rest (st s).2).1.thrown⟩,
       (runStatementsFrom rest (st s).2).2)

/-- The test body `void name() { stmts }` whose statements act on the user state. -/
def bodyFrom {σ : Type} (stmts : List (σ → Effect × σ)) : σ → BodyResult σ := fun u =>
  let r := runStatementsFrom stmts u
  ⟨r.1.cout.map (fun text => (FILE.stdout, text)), r.2,
   match r.1.thrown with
   | some e => .throwsAssertFailed e
   | none => .returns⟩

/-- Whether the registry already holds an entry of the given name. -/
def hasName {σ : Type} (p : Process σ) (name : String) : Bool :=
  (TestsManager.tests p).any fun t => t.name == name

/-- What a body wrote, as entries of the log. -/
def bodyWrites {σ : Type} (r : BodyResult σ) : List Write :=
  r.writes.map fun w => ⟨w.1, .fromBody w.2⟩

/-- The lines `RunAllTests` prints once a body has left with the given outcome:
an `ok` line after a normal return, a `failed` line and then an
`Assertion failed:` line with the description after an `AssertFailedException`. -/
def verdict (file : FILE) (name : String) : Outcome → List Write
  | .returns => [printOk name file]
  | .throwsAssertFailed e => [printFailed name file, ⟨file, .assertionFailed e.what⟩]
  | .throwsOther _ => []

/-- The block of lines `RunAllTests` prints for one test: the `running` line,
then the verdict. -/
def block (file : FILE) (name : String) (o : Outcome) : List Write :=
  printRunning name file :: verdict file name o

/-- The transcript as the spec describes it: one block per test, in registry
order, the bodies called one after the other from user state `u`. -/
def transcript {σ : Type} (file : FILE) : List (Test σ) → σ → List Write
  | [], _ => []
  | t :: ts, u => block file t.name (t.fn u).outcome ++ transcript file ts (t.fn u).state

/-- Everything written while the tests run: per test the `running` line, what
the body wrote, and the verdict. -/
def stream {σ : Type} (file : FILE) : List (Test σ) → σ → List Write
  | [], _ => []
  | t :: ts, u =>
    printRunning t.name file :: bodyWrites (t.fn u)
      ++ verdict file t.name (t.fn u).outcome ++ stream file ts (t.fn u).state

/-- The user state the bodies of `ts` leave when called one after the other from `u`. -/
def userAfter {σ : Type} : List (Test σ) → σ → σ
  | [], u => u
  | t :: ts, u => userAfter ts (t.fn u).state

/-- Whether a line comes from user code rather than from the runner. -/
def Line.isFromBody : Line → Bool
  | .fromBody _ => true
  | _ => false

/-- The writes of a log that `RunAllTests` and `main` made themselves. -/
def runnerLines (log : List Write) : List Write :=
  log.filter fun w => !w.line.isFromBody

/-- The exact value of the quotient that `main` computes in `double` as
`100.0 * num_failed / tests().size()`. -/
def percentage (num_failed size : Nat) : ℚ :=
  100 * (num_failed : ℚ) / (size : ℚ)

/-! ## Concrete tests -/

namespace Scenario

/-- Test `T1` of scenario A: `TEST(T1) { ASSERT_TRUE(1 == 1); }`. -/
def T1 : Test Unit := ⟨"T1", bodyOf [ASSERT_TRUE (Arg.plain "1 == 1" (decide (1 = 1)))]⟩

/-- Test `T2` of scenario A: `TEST(T2) { ASSERT_TRUE(1 == 2); }`. -/
def T2 : Test Unit := ⟨"T2", bodyOf [ASSERT_TRUE (Arg.plain "1 == 2" (decide (1 = 2)))]⟩

/-- Test of scenario B: `TEST(T) { }`. -/
def T : Test Unit := ⟨"T", bodyOf []⟩

/-- A test whose body throws `std::runtime_error("boom")`. -/
def Crash : Test Unit := ⟨"Crash", fun u => ⟨[], u, .throwsOther "boom"⟩⟩

/-- A second test registered under the name `T`, with a failing body. -/
def T_again : Test Unit :=
  ⟨"T", bodyOf [ASSERT_TRUE (Arg.plain "false" false)]⟩

/-- The condition `x < LIMIT` under `#define LIMIT 10`, with `x` equal to `11`. -/
def x_lt_LIMIT : Arg Bool := ⟨"x < LIMIT", "x < 10", decide (11 < 10)⟩

/-- The argument `x`, an `int` variable holding `11`. -/
def x : Expr Unit Int := ⟨"x", "x", fun s => (11, s)⟩

/-- The argument `LIMIT` under `#define LIMIT 10`. -/
def LIMIT : Expr Unit Int := ⟨"LIMIT", "10", fun s => (10, s)⟩

/-- The argument `"abc"`, a string literal (`#` keeps its quotes). -/
def abc : Arg String := Arg.plain "\"abc\"" "abc"

/-- The argument `"abd"`, a string literal. -/
def abd : Arg String := Arg.plain "\"abd\"" "abd"

/-- The condition `done`, a `bool` variable holding `true`. -/
def done : Arg Bool := Arg.plain "done" true

/-- Test `SetFlag` over a global `bool flag`: `TEST(SetFlag) { flag = true; }`. -/
def SetFlag : Test Bool := ⟨"SetFlag", fun _ => ⟨[], true, .returns⟩⟩

/-- Test `CheckFlag` over the same global: `TEST(CheckFlag) { ASSERT_FALSE(flag); }`. -/
def CheckFlag : Test Bool :=
  ⟨"CheckFlag", fun flag => bodyOf [ASSERT_FALSE (Arg.plain "flag" flag)] flag⟩

/-- How `operator<<` prints the `int`s of the examples. -/
def printInt (n : Int) : String :=
  if n = 10 then "10" else if n = 11 then "11" else "?"

/-- The operators of `int`, with `operator<<` as far as the examples print. -/
def intOps : Ops Int :=
  ⟨fun m n => decide (m = n), fun m n => decide (m ≠ n), printInt⟩

/-- The values of a `double` that the examples use: NaN and the whole numbers. -/
inductive Double where
  | nan
  | whole (n : Int)
  deriving DecidableEq, Repr

/-- The comparisons of `double` on these values: a NaN compares unequal to
everything, itself included. -/
def doubleOps : Ops Double :=
  ⟨fun a b =>
     match a, b with
     | .whole m, .whole n => decide (m = n)
     | _, _ => false,
   fun a b =>
     match a, b with
     | .whole m, .whole n => decide (m ≠ n)
     | _, _ => true,
   fun a =>
     match a with
     | .nan => "nan"
     | .whole n => printInt n⟩

/-- The argument `d`, a `double` variable holding NaN. -/
def d : Expr Unit Double := ⟨"d", "d", fun s => (.nan, s)⟩

/-- The argument `i++` over a global `int i`: it yields `i` and leaves `i + 1`. -/
def i_postinc : Expr Int Int := ⟨"i++", "i++", fun i => (i, i + 1)⟩

/-- The argument `v`, an object of class `V`. -/
def v : Expr Unit Unit := ⟨"v", "v", fun s => ((), s)⟩

/-- Test `Differ`: `TEST(Differ) { ASSERT_EQ(10, 11); }`. -/
def Differ : Test Unit :=
  ⟨"Differ", bodyFrom [ASSERT_EQ intOps (Expr.plain "10" 10) (Expr.plain "11" 11)]⟩

/-- Test `Two` with two failing assertions, the second one an `ASSERT_EQ`:
`TEST(Two) { ASSERT_TRUE(1 == 1); ASSERT_TRUE(first); ASSERT_EQ(10, 11); }`
with `first` false. -/
def Two : Test Unit :=
  ⟨"Two", bodyOf [ASSERT_TRUE (Arg.plain "1 == 1" (decide (1 = 1))),
                  ASSERT_TRUE (Arg.plain "first" false),
                  (ASSERT_EQ intOps (Expr.plain "10" 10) (Expr.plain "11" 11) ()).1]⟩

end Scenario

/-! ## The run loop -/

section Loop

open TestsManager

variable {σ : Type}

theorem outcomes_length (ts : List (Test σ)) (u : σ) : (outcomes ts u).length = ts.length := by
  induction ts generalizing u with
  | nil => rfl
  | cons t ts ih => simp [outcomes, ih]

theorem countP_outcomes_le (ts : List (Test σ)) (u : σ) :
    (outcomes ts u).countP Outcome.isAssertFailed ≤ ts.length := by
  have h := List.countP_le_length Outcome.isAssertFailed (l := outcomes ts u)
  rwa [outcomes_length] at h

/-- The loop never touches the registry. -/
theorem loop_tests_ (file : FILE) (ts : List (Test σ)) (s : LoopState σ) :
    (loop file ts s).process.tests_ = s.process.tests_ := by
  induction ts generalizing s with
  | nil => rfl
  | cons t ts ih =>
    simp only [loop]
    split
    · rw [ih]
    · rw [ih]
    · rfl

/-- When no body lets another fault out, the loop runs to its `return`, with the
counter raised once per `AssertFailedException`. -/
theorem loop_completion (file : FILE) (ts : List (Test σ)) (s : LoopState σ)
    (hn : s.num_failed ≤ SIZE_MAX)
    (h : ∀ o ∈ outcomes ts s.process.user, o.isOther = false) :
    (loop file ts s).completion =
      .returned ((s.num_failed + (outcomes ts s.process.user).countP Outcome.isAssertFailed)
        % (SIZE_MAX + 1)) := by
  induction ts generalizing s with
  | nil =>
    simp only [loop, outcomes, List.countP_nil, Nat.add_zero]
    rw [Nat.mod_eq_of_lt (Nat.lt_succ_of_le hn)]
  | cons t ts ih =>
    simp only [outcomes, List.mem_cons, forall_eq_or_imp] at h
    obtain ⟨h0, h⟩ := h
    simp only [loop, outcomes]
    cases ho : (t.fn s.process.user).outcome with
    | returns =>
      simp only [List.countP_cons, Outcome.isAssertFailed]
      rw [ih]
      · simp
      · exact hn
      · exact h
    | throwsAssertFailed e =>
      simp only [List.countP_cons, Outcome.isAssertFailed]
      rw [ih]
      · simp only [if_true, Nat.mod_add_mod]
        congr 2
        omega
      · exact Nat.le_of_lt_succ (Nat.mod_lt _ (Nat.succ_pos _))
      · exact h
    | throwsOther f =>
      rw [ho] at h0
      simp [Outcome.isOther] at h0

/-- When no body lets another fault out, the loop calls every entry it is
given, once, in order. -/
theorem loop_invoked (file : FILE) (ts : List (Test σ)) (s : LoopState σ)
    (h : ∀ o ∈ outcomes ts s.process.user, o.isOther = false) :
    (loop file ts s).invoked = s.invoked ++ ts := by
  induction ts generalizing s with
  | nil => simp [loop]
  | cons t ts ih =>
    simp only [outcomes, List.mem_cons, forall_eq_or_imp] at h
    obtain ⟨h0, h⟩ := h
    simp only [loop]
    cases ho : (t.fn s.process.user).outcome with
    | returns =>
      rw [ih]
      · simp
      · exact h
    | throwsAssertFailed e =>
      rw [ih]
      · simp
      · exact h
    | throwsOther f =>
      rw [ho] at h0
      simp [Outcome.isOther] at h0

theorem runningNames_append (l₁ l₂ : List Write) :
    runningNames (l₁ ++ l₂) = runningNames l₁ ++ runningNames l₂ := by
  simp [runningNames, List.filterMap_append]

theorem statusNames_append (l₁ l₂ : List Write) :
    statusNames (l₁ ++ l₂) = statusNames l₁ ++ statusNames l₂ := by
  simp [statusNames, List.filterMap_append]

theorem runningNames_fromBody (ws : List (FILE × String)) :
    runningNames (ws.map (fun w => (⟨w.1, .fromBody w.2⟩ : Write))) = [] := by
  induction ws with
  | nil => rfl
  | cons w ws ih => simp [runningNames]

theorem statusNames_fromBody (ws : List (FILE × String)) :
    statusNames (ws.map (fun w => (⟨w.1, .fromBody w.2⟩ : Write))) = [] := by
  induction ws with
  | nil => rfl
  | cons w ws ih => simp [statusNames]

/-- When no body lets another fault out, the loop prints one `running` line per
entry, in order. -/
theorem loop_runningNames (file : FILE) (ts : List (Test σ)) (s : LoopState σ)
    (h : ∀ o ∈ outcomes ts s.process.user, o.isOther = false) :
    runningNames (loop file ts s).process.log
      = runningNames s.process.log ++ ts.map Test.name := by
  induction ts generalizing s with
  | nil => simp [loop]
  | cons t ts ih =>
    simp only [outcomes, List.mem_cons, forall_eq_or_imp] at h
    obtain ⟨h0, h⟩ := h
    simp only [loop]
    cases ho : (t.fn s.process.user).outcome with
    | returns =>
      rw [ih]
      · simp [runningNames_append, runningNames_fromBody]
        simp [runningNames, printRunning, printOk]
      · exact h
    | throwsAssertFailed e =>
      rw [ih]
      · simp [runningNames_append, runningNames_fromBody]
        simp [runningNames, printRunning, printFailed]
      · exact h
    | throwsOther f =>
      rw [ho] at h0
      simp [Outcome.isOther] at h0

/-- When no body lets another fault out, the loop prints one `ok` or `failed`
line per entry, in order. -/
theorem loop_statusNames (file : FILE) (ts : List (Test σ)) (s : LoopState σ)
    (h : ∀ o ∈ outcomes ts s.process.user, o.isOther = false) :
    statusNames (loop file ts s).process.log
      = statusNames s.process.log ++ ts.map Test.name := by
  induction ts generalizing s with
  | nil => simp [loop]
  | cons t ts ih =>
    simp only [outcomes, List.mem_cons, forall_eq_or_imp] at h
    obtain ⟨h0, h⟩ := h
    simp only [loop]
    cases ho : (t.fn s.process.user).outcome with
    | returns =>
      rw [ih]
      · simp [statusNames_append, statusNames_fromBody]
        simp [statusNames, printRunning, printOk]
      · exact h
    | throwsAssertFailed e =>
      rw [ih]
      · simp [statusNames_append, statusNames_fromBody]
        simp [statusNames, printRunning, printFailed]
      · exact h
    | throwsOther f =>
      rw [ho] at h0
      simp [Outcome.isOther] at h0

/-- Registering a list of tests appends it to the registry and does nothing else. -/
theorem register_eq (p : Process σ) (ts : List (Test σ)) :
    register p ts = ⟨p.tests_ ++ ts, p.log, p.user⟩ := by
  induction ts generalizing p with
  | nil => simp [register]
  | cons t ts ih => simp [register, ih, TEST, AddTest, tests]

theorem RunAllTests_tests (p : Process σ) (file : FILE) :
    tests (RunAllTests p file).process = tests p := by
  simp [RunAllTests, tests, loop_tests_]

/-- The two branches of the generated `main` once `RunAllTests` has returned. -/
theorem TEST_MAIN_of_returned (p : Process σ) (n : Nat)
    (h : (RunAllTests p FILE.stdout).completion = .returned n) :
    TEST_MAIN p =
      if n = 0 then
        ⟨some 0,
         ⟨(RunAllTests p FILE.stdout).process.tests_,
          (RunAllTests p FILE.stdout).process.log ++ [⟨FILE.stdout, .summarySucceeded⟩],
          (RunAllTests p FILE.stdout).process.user⟩,
         none⟩
      else
        ⟨some (-1),
         ⟨(RunAllTests p FILE.stdout).process.tests_,
          (RunAllTests p FILE.stdout).process.log
            ++ [⟨FILE.stderr, .summaryFailed n (tests p).length⟩],
          (RunAllTests p FILE.stdout).process.user⟩,
         some (n, (tests p).length)⟩ := by
  unfold TEST_MAIN
  simp only [h, RunAllTests_tests]

/-- When no body lets another fault out, `RunAllTests` returns the number of
bodies that threw, as long as the registry has a size a `size_t` can hold. -/
theorem RunAllTests_returned (p : Process σ) (file : FILE)
    (hsize : (tests p).length ≤ SIZE_MAX)
    (h : ∀ o ∈ outcomes (tests p) p.user, o.isOther = false) :
    (RunAllTests p file).completion
      = .returned ((outcomes (tests p) p.user).countP Outcome.isAssertFailed) := by
  unfold RunAllTests
  rw [loop_completion file (tests p) ⟨0, p, []⟩ (Nat.zero_le _) h]
  simp only [Nat.zero_add]
  rw [Nat.mod_eq_of_lt]
  exact Nat.lt_succ_of_le (le_trans (countP_outcomes_le _ _) hsize)

/-- When no body lets another fault out, `RunAllTests` reaches its `return`. -/
theorem RunAllTests_completes (p : Process σ) (file : FILE)
    (h : ∀ o ∈ outcomes (tests p) p.user, o.isOther = false) :
    ∃ n, (RunAllTests p file).completion = .returned n :=
  ⟨_, loop_completion file (tests p) ⟨0, p, []⟩ (Nat.zero_le _) h⟩

/-- When no body lets another fault out, `RunAllTests` calls the registry
entries, each once, in registry order. -/
theorem RunAllTests_invoked (p : Process σ) (file : FILE)
    (h : ∀ o ∈ outcomes (tests p) p.user, o.isOther = false) :
    (RunAllTests p file).invoked = tests p := by
  unfold RunAllTests
  rw [loop_invoked file (tests p) ⟨0, p, []⟩ h]
  rfl

/-! ## The log and the state after the loop -/

theorem outcomes_append (xs ys : List (Test σ)) (u : σ) :
    outcomes (xs ++ ys) u = outcomes xs u ++ outcomes ys (userAfter xs u) := by
  induction xs generalizing u with
  | nil => rfl
  | cons t xs ih => simp [outcomes, userAfter, ih]

theorem stream_append (file : FILE) (xs ys : List (Test σ)) (u : σ) :
    stream file (xs ++ ys) u = stream file xs u ++ stream file ys (userAfter xs u) := by
  induction xs generalizing u with
  | nil => rfl
  | cons t xs ih => simp [stream, userAfter, ih]

theorem transcript_append (file : FILE) (xs ys : List (Test σ)) (u : σ) :
    transcript file (xs ++ ys) u
      = transcript file xs u ++ transcript file ys (userAfter xs u) := by
  induction xs generalizing u with
  | nil => rfl
  | cons t xs ih => simp [transcript, userAfter, ih]

theorem runnerLines_append (l₁ l₂ : List Write) :
    runnerLines (l₁ ++ l₂) = runnerLines l₁ ++ runnerLines l₂ := by
  simp [runnerLines]

theorem runnerLines_bodyWrites (r : BodyResult σ) : runnerLines (bodyWrites r) = [] := by
  unfold runnerLines bodyWrites
  rw [List.filter_eq_nil_iff]
  intro w hw
  rw [List.mem_map] at hw
  obtain ⟨x, _, rfl⟩ := hw
  simp [Line.isFromBody]

theorem runnerLines_verdict (file : FILE) (name : String) (o : Outcome) :
    runnerLines (verdict file name o) = verdict file name o := by
  cases o <;> simp [runnerLines, verdict, printOk, printFailed, Line.isFromBody]

/-- With what the bodies wrote taken out, the stream is the transcript. -/
theorem runnerLines_stream (file : FILE) (ts : List (Test σ)) (u : σ) :
    runnerLines (stream file ts u) = transcript file ts u := by
  induction ts generalizing u with
  | nil => rfl
  | cons t ts ih =>
    have hrun : runnerLines [printRunning t.name file] = [printRunning t.name file] := by
      simp [runnerLines, printRunning, Line.isFromBody]
    rw [stream, transcript, block, ← List.singleton_append, List.append_assoc,
      List.append_assoc, runnerLines_append, runnerLines_append, runnerLines_append, hrun,
      runnerLines_bodyWrites, runnerLines_verdict, ih]
    simp

/-- When no body lets another fault out, the loop appends the stream of its
entries to the log. -/
theorem loop_log (file : FILE) (ts : List (Test σ)) (s : LoopState σ)
    (h : ∀ o ∈ outcomes ts s.process.user, o.isOther = false) :
    (loop file ts s).process.log = s.process.log ++ stream file ts s.process.user := by
  induction ts generalizing s with
  | nil => simp [loop, stream]
  | cons t ts ih =>
    simp only [outcomes, List.mem_cons, forall_eq_or_imp] at h
    obtain ⟨h0, h⟩ := h
    simp only [loop, stream]
    cases ho : (t.fn s.process.user).outcome with
    | returns =>
      rw [ih]
      · simp [verdict, bodyWrites]
      · exact h
    | throwsAssertFailed e =>
      rw [ih]
      · simp [verdict, bodyWrites]
      · exact h
    | throwsOther f =>
      rw [ho] at h0
      simp [Outcome.isOther] at h0

/-- When no body lets another fault out, the loop leaves the user state the
bodies produce in sequence. -/
theorem loop_user (file : FILE) (ts : List (Test σ)) (s : LoopState σ)
    (h : ∀ o ∈ outcomes ts s.process.user, o.isOther = false) :
    (loop file ts s).process.user = userAfter ts s.process.user := by
  induction ts generalizing s with
  | nil => simp [loop, userAfter]
  | cons t ts ih =>
    simp only [outcomes, List.mem_cons, forall_eq_or_imp] at h
    obtain ⟨h0, h⟩ := h
    simp only [loop, userAfter]
    cases ho : (t.fn s.process.user).outcome with
    | returns =>
      rw [ih]
      exact h
    | throwsAssertFailed e =>
      rw [ih]
      exact h
    | throwsOther f =>
      rw [ho] at h0
      simp [Outcome.isOther] at h0

/-- The loop over `pre ++ t :: post` when the bodies of `pre` let no other
fault out and the body of `t` does: the fault leaves the loop, with the log,
the trace and the counter as they stand after `pre` and the call of `t`. -/
theorem loop_fault (file : FILE) (pre : List (Test σ)) (t : Test σ) (post : List (Test σ))
    (s : LoopState σ) (fault : String)
    (hn : s.num_failed ≤ SIZE_MAX)
    (h : ∀ o ∈ outcomes pre s.process.user, o.isOther = false)
    (ht : (t.fn (userAfter pre s.process.user)).outcome = .throwsOther fault) :
    loop file (pre ++ t :: post) s
      = ⟨.propagated fault,
         ⟨s.process.tests_,
          s.process.log ++ stream file pre s.process.user
            ++ [printRunning t.name file] ++ bodyWrites (t.fn (userAfter pre s.process.user)),
          (t.fn (userAfter pre s.process.user)).state⟩,
         s.invoked ++ pre ++ [t],
         (s.num_failed + (outcomes pre s.process.user).countP Outcome.isAssertFailed)
           % (SIZE_MAX + 1)⟩ := by
  induction pre generalizing s with
  | nil =>
    simp only [List.nil_append, userAfter] at ht ⊢
    simp only [loop, ht, stream, outcomes, List.countP_nil, Nat.add_zero, List.append_nil,
      bodyWrites]
    rw [Nat.mod_eq_of_lt (Nat.lt_succ_of_le hn)]
  | cons a pre ih =>
    simp only [outcomes, List.mem_cons, forall_eq_or_imp] at h
    obtain ⟨h0, h⟩ := h
    simp only [userAfter] at ht
    rw [List.cons_append]
    simp only [loop, stream, outcomes, userAfter]
    cases ho : (a.fn s.process.user).outcome with
    | returns =>
      simp only []
      rw [ih]
      · simp [verdict, bodyWrites, Outcome.isAssertFailed]
      · exact hn
      · exact h
      · exact ht
    | throwsAssertFailed e =>
      simp only []
      rw [ih]
      · simp only [verdict, bodyWrites, List.countP_cons, Outcome.isAssertFailed, if_true,
          Nat.mod_add_mod]
        simp only [List.append_assoc, List.cons_append, List.nil_append,
          List.singleton_append]
        congr 2
        omega
      · exact Nat.le_of_lt_succ (Nat.mod_lt _ (Nat.succ_pos _))
      · exact h
      · exact ht
    | throwsOther f =>
      rw [ho] at h0
      simp [Outcome.isOther] at h0

theorem stream_eq_transcript (file : FILE) (ts : List (Test σ)) (u : σ)
    (h : ∀ t ∈ ts, ∀ v, (t.fn v).writes = []) :
    stream file ts u = transcript file ts u := by
  induction ts generalizing u with
  | nil => rfl
  | cons t ts ih =>
    simp only [List.mem_cons, forall_eq_or_imp] at h
    simp [stream, transcript, block, bodyWrites, h.1 u, ih _ h.2]

theorem runningNames_stream (file : FILE) (ts : List (Test σ)) (u : σ) :
    runningNames (stream file ts u) = ts.map Test.name := by
  induction ts generalizing u with
  | nil => rfl
  | cons t ts ih =>
    have h1 : runningNames [printRunning t.name file] = [t.name] := by
      simp [runningNames, printRunning]
    have h2 : runningNames (verdict file t.name (t.fn u).outcome) = [] := by
      cases (t.fn u).outcome <;> simp [runningNames, verdict, printOk, printFailed]
    rw [stream, ← List.singleton_append, List.append_assoc, List.append_assoc,
      runningNames_append, runningNames_append, runningNames_append, h1, h2, ih]
    simp [bodyWrites, runningNames_fromBody]

theorem statusNames_stream (file : FILE) (ts : List (Test σ)) (u : σ)
    (h : ∀ o ∈ outcomes ts u, o.isOther = false) :
    statusNames (stream file ts u) = ts.map Test.name := by
  induction ts generalizing u with
  | nil => rfl
  | cons t ts ih =>
    simp only [outcomes, List.mem_cons, forall_eq_or_imp] at h
    obtain ⟨h0, h⟩ := h
    have h1 : statusNames [printRunning t.name file] = [] := by
      simp [statusNames, printRunning]
    have h2 : statusNames (verdict file t.name (t.fn u).outcome) = [t.name] := by
      cases ho : (t.fn u).outcome with
      | returns => simp [statusNames, verdict, printOk]
      | throwsAssertFailed e => simp [statusNames, verdict, printFailed]
      | throwsOther f =>
        rw [ho] at h0
        simp [Outcome.isOther] at h0
    rw [stream, ← List.singleton_append, List.append_assoc, List.append_assoc,
      statusNames_append, statusNames_append, statusNames_append, h1, h2, ih _ h]
    simp [bodyWrites, statusNames_fromBody]

/-- Bodies whose outcome does not depend on the user state have the same
outcomes from every state. -/
theorem outcomes_of_independent (ts : List (Test σ)) (u v : σ)
    (h : ∀ t ∈ ts, ∀ a b, (t.fn a).outcome = (t.fn b).outcome) :
    outcomes ts u = outcomes ts v := by
  induction ts generalizing u v with
  | nil => rfl
  | cons t ts ih =>
    simp only [List.mem_cons, forall_eq_or_imp] at h
    simp only [outcomes]
    rw [h.1 u v, ih _ _ h.2]

theorem transcript_of_independent (file : FILE) (ts : List (Test σ)) (u v : σ)
    (h : ∀ t ∈ ts, ∀ a b, (t.fn a).outcome = (t.fn b).outcome) :
    transcript file ts u = transcript file ts v := by
  induction ts generalizing u v with
  | nil => rfl
  | cons t ts ih =>
    simp only [List.mem_cons, forall_eq_or_imp] at h
    simp only [transcript]
    rw [h.1 u v, ih _ _ h.2]

/-! ## Bodies made of assertions -/

theorem couts_append (xs ys : List Effect) : couts (xs ++ ys) = couts xs ++ couts ys := by
  induction xs with
  | nil => rfl
  | cons e xs ih => simp [couts, ih]

/-- Statements that do not throw are all executed. -/
theorem runStatements_of_none (stmts : List Effect) (h : ∀ e ∈ stmts, e.thrown = none) :
    runStatements stmts = ⟨couts stmts, none⟩ := by
  induction stmts with
  | nil => rfl
  | cons e es ih =>
    simp only [List.mem_cons, forall_eq_or_imp] at h
    simp [runStatements, couts, h.1, ih h.2]

/-- The first statement that throws ends the body: the result does not depend
on the statements after it. -/
theorem runStatements_of_first (pre : List Effect) (e : Effect) (x : AssertFailedException)
    (post : List Effect) (hpre : ∀ s ∈ pre, s.thrown = none) (he : e.thrown = some x) :
    runStatements (pre ++ e :: post) = ⟨couts (pre ++ [e]), some x⟩ := by
  induction pre with
  | nil => simp [runStatements, couts, he]
  | cons a pre ih =>
    simp only [List.mem_cons, forall_eq_or_imp] at hpre
    simp [runStatements, couts, hpre.1, ih hpre.2]

/-- A body throws exactly when one of its statements does. -/
theorem runStatements_thrown_isSome (stmts : List Effect) :
    (runStatements stmts).thrown.isSome = true ↔ ∃ e ∈ stmts, e.thrown.isSome = true := by
  induction stmts with
  | nil => simp [runStatements]
  | cons e es ih =>
    cases he : e.thrown with
    | none => simp [runStatements, he, ih]
    | some x => simp [runStatements, he]

/-- One turn of the loop on a test whose body throws `AssertFailedException`. -/
theorem loop_cons_failed (file : FILE) (t : Test σ) (rest : List (Test σ)) (s : LoopState σ)
    (x : AssertFailedException) (h : (t.fn s.process.user).outcome = .throwsAssertFailed x) :
    loop file (t :: rest) s
      = loop file rest
          ⟨(s.num_failed + 1) % (SIZE_MAX + 1),
           ⟨s.process.tests_,
            s.process.log ++ [printRunning t.name file] ++ bodyWrites (t.fn s.process.user)
              ++ [printFailed t.name file, ⟨file, .assertionFailed x.what⟩],
            (t.fn s.process.user).state⟩,
           s.invoked ++ [t]⟩ := by
  simp only [loop, h, bodyWrites]

/-- One turn of the loop on a test whose body returns normally. -/
theorem loop_cons_returns (file : FILE) (t : Test σ) (rest : List (Test σ)) (s : LoopState σ)
    (h : (t.fn s.process.user).outcome = .returns) :
    loop file (t :: rest) s
      = loop file rest
          ⟨s.num_failed,
           ⟨s.process.tests_,
            s.process.log ++ [printRunning t.name file] ++ bodyWrites (t.fn s.process.user)
              ++ [printOk t.name file],
            (t.fn s.process.user).state⟩,
           s.invoked ++ [t]⟩ := by
  simp only [loop, h, bodyWrites]

/-! ## `ASSERT_EQ` on arguments without side effects -/

/-- Arguments that leave the user state alone yield the same values at every
evaluation of the pair. -/
theorem evalBoth_of_readOnly {α : Type} (a b : Expr σ α) (s : σ)
    (ha : ∀ t, (a.eval t).2 = t) (hb : ∀ t, (b.eval t).2 = t) :
    evalBoth a b s = ((a.eval s).1, (b.eval s).1, s) := by
  simp only [evalBoth, ha, hb]

/-- On arguments that leave the user state alone, `ASSERT_EQ` prints by `!=`
and throws by `==` of the same two values, and leaves the state alone. -/
theorem ASSERT_EQ_of_readOnly {α : Type} (ops : Ops α) (a b : Expr σ α) (s : σ)
    (ha : ∀ t, (a.eval t).2 = t) (hb : ∀ t, (b.eval t).2 = t) :
    ASSERT_EQ ops a b s
      = (⟨if ops.ne (a.eval s).1 (b.eval s).1 then
            ["Actual values: " ++ ops.print (a.eval s).1 ++ " != "
              ++ ops.print (b.eval s).1 ++ "\n"]
          else [],
          if ops.eq (a.eval s).1 (b.eval s).1 then none
          else some ⟨a.expansion ++ " == " ++ b.expansion⟩⟩, s) := by
  unfold ASSERT_EQ
  simp only [evalBoth_of_readOnly a b _ ha hb]
  cases hne : ops.ne (a.eval s).1 (b.eval s).1 <;>
    cases heq : ops.eq (a.eval s).1 (b.eval s).1 <;>
    simp [ASSERT, ASSERT_TRUE, Arg.prescan, Arg.eq, heq]

/-! ## String comparison -/

theorem traits_compare_self (cs : List Char) (n : Nat) : traits_compare cs cs n = 0 := by
  induction cs generalizing n with
  | nil => simp [traits_compare]
  | cons c cs ih =>
    cases n with
    | zero => simp [traits_compare]
    | succ n => simp [traits_compare, ih]

theorem eq_of_traits_compare (cs ds : List Char) (n : Nat)
    (hc : cs.length = n) (hd : ds.length = n) (h : traits_compare cs ds n = 0) : cs = ds := by
  induction cs generalizing ds n with
  | nil =>
    cases ds with
    | nil => rfl
    | cons d ds => simp at hc; subst hc; simp at hd
  | cons c cs ih =>
    cases ds with
    | nil => simp at hd; subst hd; simp at hc
    | cons d ds =>
      cases n with
      | zero => simp at hc
      | succ n =>
        simp only [List.length_cons, Nat.add_right_cancel_iff] at hc hd
        simp only [traits_compare] at h
        split at h
        · simp at h
        · split at h
          · simp at h
          · have hcd : c.toNat = d.toNat := by omega
            have hchar : c = d := by
              have := congrArg Char.ofNat hcd
              simpa using this
            rw [hchar, ih ds n hc hd h]

/-- The comparison `std::string::compare` yields `0` exactly on equal contents. -/
theorem string_compare_eq_zero (a b : String) : string_compare a b = 0 ↔ a = b := by
  constructor
  · intro h
    unfold string_compare at h
    simp only at h
    split at h
    · contradiction
    · rename_i hr
      simp only [ne_eq, Decidable.not_not] at hr
      split at h
      · simp at h
      · split at h
        · simp at h
        · have hlen : a.length = b.length := by omega
          have hlen2 : a.data.length = b.data.length := hlen
          rw [hlen, Nat.min_self] at hr
          exact String.ext (eq_of_traits_compare _ _ _ hlen2 rfl hr)
  · intro h
    subst h
    simp [string_compare, traits_compare_self]

end Loop

/-! ## The claims -/

section Claims

open TestsManager

variable {σ : Type}

/-- Claim C1: when every body either returns normally or throws
`AssertFailedException`, `RunAllTests` returns the number of registry entries
whose body threw, and the total the summary uses, `tests().size()` after the
run, is the number of registry entries; in the generated `main` the percentage
is computed from exactly these two numbers. -/
theorem RunAllTests_returns_failed_count (p : Process σ) (file : FILE)
    (hsize : (tests p).length ≤ SIZE_MAX)
    (h : ∀ o ∈ outcomes (tests p) p.user, o.isOther = false) :
    (RunAllTests p file).completion
        = .returned ((outcomes (tests p) p.user).countP Outcome.isAssertFailed)
      ∧ (tests (RunAllTests p file).process).length = (tests p).length
      ∧ ∀ n size, (TEST_MAIN p).division = some (n, size) →
          n = (outcomes (tests p) p.user).countP Outcome.isAssertFailed
            ∧ size = (tests p).length := by
  refine ⟨RunAllTests_returned p file hsize h, by rw [RunAllTests_tests], ?_⟩
  intro n size hd
  rw [TEST_MAIN_of_returned p _ (RunAllTests_returned p FILE.stdout hsize h)] at hd
  split at hd
  · simp at hd
  · simp only [Option.some.injEq, Prod.mk.injEq] at hd
    exact ⟨hd.1.symm, hd.2.symm⟩

/-- Scenario A: `T1` passes and `T2` fails, so the run reports one failure out of two. -/
theorem RunAllTests_returns_failed_count_witness :
    (tests (⟨[Scenario.T1, Scenario.T2], [], ()⟩ : Process Unit)).length ≤ SIZE_MAX
      ∧ (∀ o ∈ outcomes [Scenario.T1, Scenario.T2] (), o.isOther = false)
      ∧ (RunAllTests (⟨[Scenario.T1, Scenario.T2], [], ()⟩ : Process Unit)
          FILE.stdout).completion = .returned 1
      ∧ (TEST_MAIN (⟨[Scenario.T1, Scenario.T2], [], ()⟩ : Process Unit)).division
          = some (1, 2) :=
  ⟨by decide, by decide,
   (RunAllTests_returns_failed_count
      (⟨[Scenario.T1, Scenario.T2], [], ()⟩ : Process Unit) FILE.stdout
      (by decide) (by decide)).1,
   by decide⟩

/-- Claim C2 (isolation): when every body either returns normally or throws
`AssertFailedException`, `RunAllTests` returns normally, and the bodies it
called are exactly the registry entries, each once and in registry order,
whichever of them threw; as many tests are executed as are registered. -/
theorem RunAllTests_isolation (p : Process σ) (file : FILE)
    (h : ∀ o ∈ outcomes (tests p) p.user, o.isOther = false) :
    (∃ n, (RunAllTests p file).completion = .returned n)
      ∧ (RunAllTests p file).invoked = tests p
      ∧ (RunAllTests p file).invoked.length = (tests p).length := by
  have hinv := RunAllTests_invoked p file h
  exact ⟨RunAllTests_completes p file h, hinv, by rw [hinv]⟩

/-- The failing `T_again` comes first and does not keep `T1` and `T2` from running. -/
theorem RunAllTests_isolation_witness :
    (∀ o ∈ outcomes [Scenario.T_again, Scenario.T1, Scenario.T2] (), o.isOther = false)
      ∧ (RunAllTests (⟨[Scenario.T_again, Scenario.T1, Scenario.T2], [], ()⟩ : Process Unit)
          FILE.stdout).invoked = [Scenario.T_again, Scenario.T1, Scenario.T2] :=
  ⟨by decide,
   (RunAllTests_isolation
      (⟨[Scenario.T_again, Scenario.T1, Scenario.T2], [], ()⟩ : Process Unit) FILE.stdout
      (by decide)).2.1⟩

/-- Claim C3, as stated, fails: `Crash` and then `T1` are registered in this
order, `Crash` throws something that is not an `AssertFailedException`, and
the only `running` line of the run is that of `Crash`, while two names are
registered. -/
theorem running_lines_stop_at_fault :
    tests (register (⟨[], [], ()⟩ : Process Unit) [Scenario.Crash, Scenario.T1])
        = [Scenario.Crash, Scenario.T1]
      ∧ runningNames
          (RunAllTests (register (⟨[], [], ()⟩ : Process Unit) [Scenario.Crash, Scenario.T1])
            FILE.stdout).process.log = ["Crash"]
      ∧ runningNames
          (RunAllTests (register (⟨[], [], ()⟩ : Process Unit) [Scenario.Crash, Scenario.T1])
            FILE.stdout).process.log
          ≠ [Scenario.Crash, Scenario.T1].map Test.name := by
  refine ⟨rfl, by decide, by decide⟩

/-- Claim C3, amended: from an empty registry, `TEST(T1) ... TEST(Tn)` in this
order leave `tests()` equal to `[T1, ..., Tn]`; and when every body either
returns normally or throws `AssertFailedException`, `RunAllTests` calls the
bodies in exactly that order and the names in its `running` lines, and in its
`ok`/`failed` lines, are the registered names in that order. -/
theorem registration_order_preserved (log : List Write) (u : σ) (ts : List (Test σ))
    (file : FILE) :
    tests (register ⟨[], log, u⟩ ts) = ts
      ∧ ((∀ o ∈ outcomes ts u, o.isOther = false) →
          (RunAllTests (register ⟨[], log, u⟩ ts) file).invoked = ts
            ∧ runningNames (RunAllTests (register ⟨[], log, u⟩ ts) file).process.log
                = runningNames log ++ ts.map Test.name
            ∧ statusNames (RunAllTests (register ⟨[], log, u⟩ ts) file).process.log
                = statusNames log ++ ts.map Test.name) := by
  have hreg : register (⟨[], log, u⟩ : Process σ) ts = ⟨ts, log, u⟩ := by
    rw [register_eq]; simp
  rw [hreg]
  refine ⟨rfl, fun h => ⟨?_, ?_, ?_⟩⟩
  · exact loop_invoked file ts ⟨0, ⟨ts, log, u⟩, []⟩ h
  · exact loop_runningNames file ts ⟨0, ⟨ts, log, u⟩, []⟩ h
  · exact loop_statusNames file ts ⟨0, ⟨ts, log, u⟩, []⟩ h

/-- Scenario A registered through `TEST`: `T1` then `T2`, run and reported in this order. -/
theorem registration_order_preserved_witness :
    (∀ o ∈ outcomes [Scenario.T1, Scenario.T2] (), o.isOther = false)
      ∧ runningNames
          (RunAllTests (register (⟨[], [], ()⟩ : Process Unit) [Scenario.T1, Scenario.T2])
            FILE.stdout).process.log = ["T1", "T2"] :=
  ⟨by decide,
   ((registration_order_preserved [] () [Scenario.T1, Scenario.T2] FILE.stdout).2
      (by decide)).2.1⟩

/-- Claim C4 (exit status): when every body either returns normally or throws
`AssertFailedException`, `RunAllTests` returns some `n`, the generated `main`
returns `0` exactly when `n = 0` and `-1` otherwise, and the summary line is the
last thing written: on `stdout` when `n = 0`, on `stderr` otherwise. -/
theorem TEST_MAIN_exit_status (p : Process σ)
    (h : ∀ o ∈ outcomes (tests p) p.user, o.isOther = false) :
    ∃ n, (RunAllTests p FILE.stdout).completion = .returned n
      ∧ ((TEST_MAIN p).returned = some 0 ↔ n = 0)
      ∧ (n ≠ 0 → (TEST_MAIN p).returned = some (-1))
      ∧ (n = 0 → (TEST_MAIN p).process.log
            = (RunAllTests p FILE.stdout).process.log ++ [⟨FILE.stdout, .summarySucceeded⟩])
      ∧ (n ≠ 0 → (TEST_MAIN p).process.log
            = (RunAllTests p FILE.stdout).process.log
                ++ [⟨FILE.stderr, .summaryFailed n (tests p).length⟩]) := by
  obtain ⟨n, hn⟩ := RunAllTests_completes p FILE.stdout h
  refine ⟨n, hn, ?_, ?_, ?_, ?_⟩
  · rw [TEST_MAIN_of_returned p n hn]
    by_cases h0 : n = 0
    · simp [h0]
    · simp [h0]
  · intro h0
    rw [TEST_MAIN_of_returned p n hn]
    simp [h0]
  · intro h0
    rw [TEST_MAIN_of_returned p n hn]
    simp [h0]
  · intro h0
    rw [TEST_MAIN_of_returned p n hn]
    simp [h0]

/-- Scenario B: one test with an empty body; `main` returns `0` and the summary goes to `stdout`. -/
theorem TEST_MAIN_exit_status_witness :
    (∀ o ∈ outcomes [Scenario.T] (), o.isOther = false)
      ∧ (∃ n, (RunAllTests (⟨[Scenario.T], [], ()⟩ : Process Unit) FILE.stdout).completion
            = .returned n
          ∧ ((TEST_MAIN (⟨[Scenario.T], [], ()⟩ : Process Unit)).returned = some 0 ↔ n = 0)
          ∧ (n ≠ 0 → (TEST_MAIN (⟨[Scenario.T], [], ()⟩ : Process Unit)).returned = some (-1))
          ∧ (n = 0 → (TEST_MAIN (⟨[Scenario.T], [], ()⟩ : Process Unit)).process.log
                = (RunAllTests (⟨[Scenario.T], [], ()⟩ : Process Unit) FILE.stdout).process.log
                    ++ [⟨FILE.stdout, .summarySucceeded⟩])
          ∧ (n ≠ 0 → (TEST_MAIN (⟨[Scenario.T], [], ()⟩ : Process Unit)).process.log
                = (RunAllTests (⟨[Scenario.T], [], ()⟩ : Process Unit) FILE.stdout).process.log
                    ++ [⟨FILE.stderr, .summaryFailed n
                          (tests (⟨[Scenario.T], [], ()⟩ : Process Unit)).length⟩]))
      ∧ (TEST_MAIN (⟨[Scenario.T], [], ()⟩ : Process Unit)).returned = some 0
      ∧ (TEST_MAIN (⟨[Scenario.T1, Scenario.T2], [], ()⟩ : Process Unit)).returned
          = some (-1) :=
  ⟨by decide,
   TEST_MAIN_exit_status (⟨[Scenario.T], [], ()⟩ : Process Unit) (by decide),
   by decide, by decide⟩

/-- Claim C5 (vacuous run): with an empty registry `RunAllTests` returns `0`,
calls nothing and writes nothing, and the generated `main` takes the success
branch: it writes the success summary to `stdout`, returns `0`, and does not
evaluate the percentage division. -/
theorem vacuous_run (log : List Write) (u : σ) (file : FILE) :
    (RunAllTests (⟨[], log, u⟩ : Process σ) file).completion = .returned 0
      ∧ (RunAllTests (⟨[], log, u⟩ : Process σ) file).process.log = log
      ∧ (RunAllTests (⟨[], log, u⟩ : Process σ) file).invoked = []
      ∧ (TEST_MAIN (⟨[], log, u⟩ : Process σ)).returned = some 0
      ∧ (TEST_MAIN (⟨[], log, u⟩ : Process σ)).process.log
          = log ++ [⟨FILE.stdout, .summarySucceeded⟩]
      ∧ (TEST_MAIN (⟨[], log, u⟩ : Process σ)).division = none :=
  ⟨rfl, rfl, rfl, rfl, rfl, rfl⟩

/-- Claim C6, as stated, fails for the alias: under `#define LIMIT 10`,
`ASSERT(x < LIMIT)` with `x` equal to `11` throws an exception whose `what()` is
`"x < 10"`, not the supplied text `"x < LIMIT"`; `ASSERT_TRUE(x < LIMIT)` carries
the supplied text. -/
theorem ASSERT_what_is_expanded_text :
    Scenario.x_lt_LIMIT.value = false
      ∧ (ASSERT Scenario.x_lt_LIMIT).thrown.map AssertFailedException.what = some "x < 10"
      ∧ (ASSERT Scenario.x_lt_LIMIT).thrown.map AssertFailedException.what
          ≠ some Scenario.x_lt_LIMIT.spelling
      ∧ (ASSERT_TRUE Scenario.x_lt_LIMIT).thrown.map AssertFailedException.what
          = some "x < LIMIT" := by
  refine ⟨by decide, by decide, by decide, by decide⟩

/-- Claim C6, amended: `ASSERT_TRUE` throws exactly when its condition is false;
with a true condition it does nothing and control continues, with a false one it
throws an `AssertFailedException` whose `what()` is exactly the supplied
condition text.  The alias `ASSERT` throws in the same cases; its `what()` is
the condition text after macro replacement, which is the supplied text when
the condition names no macro. -/
theorem ASSERT_TRUE_raises_iff_false (c : Arg Bool) :
    ASSERT_TRUE c = (if c.value then ⟨[], none⟩ else ⟨[], some ⟨c.spelling⟩⟩)
      ∧ ASSERT c = (if c.value then ⟨[], none⟩ else ⟨[], some ⟨c.expansion⟩⟩)
      ∧ ((ASSERT_TRUE c).thrown.isSome ↔ c.value = false)
      ∧ ((ASSERT c).thrown.isSome ↔ c.value = false)
      ∧ (c.value = false →
          (ASSERT_TRUE c).thrown.map AssertFailedException.what = some c.spelling
            ∧ (ASSERT c).thrown.map AssertFailedException.what = some c.expansion)
      ∧ (c.expansion = c.spelling → ASSERT c = ASSERT_TRUE c) := by
  obtain ⟨sp, ex, v⟩ := c
  cases v
  · refine ⟨rfl, rfl, by simp [ASSERT_TRUE], by simp [ASSERT, ASSERT_TRUE, Arg.prescan],
      fun _ => ⟨rfl, rfl⟩, ?_⟩
    intro h
    simp only at h
    simp [ASSERT, ASSERT_TRUE, Arg.prescan, h]
  · refine ⟨rfl, rfl, by simp [ASSERT_TRUE], by simp [ASSERT, ASSERT_TRUE, Arg.prescan],
      fun h => by simp at h, fun _ => rfl⟩

/-- Scenario A conditions: `1 == 1` passes silently and `1 == 2` throws with
`what()` equal to `"1 == 2"`, through `ASSERT_TRUE` and through `ASSERT`. -/
theorem ASSERT_TRUE_raises_iff_false_witness :
    ASSERT_TRUE (Arg.plain "1 == 1" (decide (1 = 1))) = ⟨[], none⟩
      ∧ (ASSERT_TRUE (Arg.plain "1 == 2" (decide (1 = 2)))).thrown.map
          AssertFailedException.what = some "1 == 2"
      ∧ (ASSERT (Arg.plain "1 == 2" (decide (1 = 2)))).thrown.map
          AssertFailedException.what = some "1 == 2" :=
  ⟨by decide,
   ((ASSERT_TRUE_raises_iff_false (Arg.plain "1 == 2" (decide (1 = 2)))).2.2.2.2.1
      (by decide)).1,
   ((ASSERT_TRUE_raises_iff_false (Arg.plain "1 == 2" (decide (1 = 2)))).2.2.2.2.1
      (by decide)).2⟩

/-- Claim C7, as stated, fails in three ways.  A `double` variable `d` holding
NaN: `ASSERT_EQ(d, d)` throws.  Under `#define LIMIT 10`, `ASSERT_EQ(x, LIMIT)`
with `x` equal to `11` throws with the description `"x == 10"`, not the text
`"x == LIMIT"` of the arguments as written.  With a global `i` equal to `0`,
`ASSERT_EQ(i++, 0)` throws although `i++` yields `0`: the comparison that
decides is a later evaluation. -/
theorem ASSERT_EQ_raises_beyond_difference :
    (ASSERT_EQ Scenario.doubleOps Scenario.d Scenario.d ()).1.thrown = some ⟨"d == d"⟩
      ∧ (ASSERT_EQ Scenario.intOps Scenario.x Scenario.LIMIT ()).1.thrown
          = some ⟨"x == 10"⟩
      ∧ (ASSERT_EQ Scenario.intOps Scenario.x Scenario.LIMIT ()).1.thrown
          ≠ some ⟨Scenario.x.spelling ++ " == " ++ Scenario.LIMIT.spelling⟩
      ∧ (Scenario.i_postinc.eval 0).1 = 0
      ∧ ASSERT_EQ Scenario.intOps Scenario.i_postinc (Expr.plain "0" 0) 0
          = (⟨[], some ⟨"i++ == 0"⟩⟩, 2) := by
  refine ⟨by decide, by decide, by decide, by decide, by decide⟩

/-- Claim C7, amended: for arguments whose evaluation leaves the user state
alone and a value type whose `==` is equality of values, `ASSERT_EQ(a, b)`
throws exactly when the values of `a` and `b` differ; `ASSERT_EQ(a, a)` never
throws; when it throws, the description is the comparison text built from the
texts of the two arguments after macro replacement (`"a == b"` as written
when they name no macro), never from the values; and the statement leaves the
user state alone. -/
theorem ASSERT_EQ_raises_iff_differ {α : Type} (ops : Ops α) (a b : Expr σ α) (s : σ)
    (ha : ∀ t, (a.eval t).2 = t) (hb : ∀ t, (b.eval t).2 = t)
    (heq : ∀ x y, ops.eq x y = true ↔ x = y) :
    ((ASSERT_EQ ops a b s).1.thrown.isSome = true ↔ (a.eval s).1 ≠ (b.eval s).1)
      ∧ (ASSERT_EQ ops a a s).1.thrown = none
      ∧ (ASSERT_EQ ops a b s).1.thrown
          = (if ops.eq (a.eval s).1 (b.eval s).1 then none
             else some ⟨a.expansion ++ " == " ++ b.expansion⟩)
      ∧ (a.expansion = a.spelling → b.expansion = b.spelling →
          (ASSERT_EQ ops a b s).1.thrown
            = (if ops.eq (a.eval s).1 (b.eval s).1 then none
               else some ⟨a.spelling ++ " == " ++ b.spelling⟩))
      ∧ (ASSERT_EQ ops a b s).2 = s := by
  rw [ASSERT_EQ_of_readOnly ops a b s ha hb, ASSERT_EQ_of_readOnly ops a a s ha ha]
  refine ⟨?_, ?_, rfl, ?_, rfl⟩
  · by_cases hab : (a.eval s).1 = (b.eval s).1
    · have ht : ops.eq (a.eval s).1 (b.eval s).1 = true := (heq _ _).2 hab
      simp only [ht, if_true, Option.isSome_none]
      simp [hab]
    · have hf : ops.eq (a.eval s).1 (b.eval s).1 = false := by
        cases h : ops.eq (a.eval s).1 (b.eval s).1
        · rfl
        · exact absurd ((heq _ _).1 h) hab
      simp [hf, hab]
  · simp [(heq (a.eval s).1 (a.eval s).1).2 rfl]
  · intro hsa hsb
    simp only [hsa, hsb]

/-- Literal arguments of type `int`: `ASSERT_EQ(10, 10)` does not throw,
`ASSERT_EQ(10, 11)` throws with the description `"10 == 11"`. -/
theorem ASSERT_EQ_raises_iff_differ_witness :
    (∀ x y, Scenario.intOps.eq x y = true ↔ x = y)
      ∧ (ASSERT_EQ Scenario.intOps (Expr.plain "10" 10) (Expr.plain "10" 10) ()).1.thrown
          = none
      ∧ (ASSERT_EQ Scenario.intOps (Expr.plain "10" 10) (Expr.plain "11" 11) ()).1.thrown
          = some ⟨"10 == 11"⟩ :=
  ⟨fun x y => by simp [Scenario.intOps],
   (ASSERT_EQ_raises_iff_differ Scenario.intOps (Expr.plain "10" 10) (Expr.plain "10" 10) ()
      (fun _ => rfl) (fun _ => rfl) (fun x y => by simp [Scenario.intOps])).2.1,
   (ASSERT_EQ_raises_iff_differ Scenario.intOps (Expr.plain "10" 10) (Expr.plain "11" 11) ()
      (fun _ => rfl) (fun _ => rfl) (fun x y => by simp [Scenario.intOps])).2.2.1⟩

/-- Claim C8: `ASSERT_STREQ(a, b)` compares the contents of the two strings: it
throws exactly when they differ as character sequences, and then the
description is the text of `a`, then `" == "`, then the text of `b`; on equal
contents it does nothing. -/
theorem ASSERT_STREQ_compares_contents (a b : Arg String) :
    ((ASSERT_STREQ a b).thrown.isSome ↔ a.value.data ≠ b.value.data)
      ∧ ASSERT_STREQ a b
          = (if a.value = b.value then ⟨[], none⟩
             else ⟨[], some ⟨a.spelling ++ " == " ++ b.spelling⟩⟩) := by
  have key : ASSERT_STREQ a b
      = (if a.value = b.value then ⟨[], none⟩
         else ⟨[], some ⟨a.spelling ++ " == " ++ b.spelling⟩⟩) := by
    unfold ASSERT_STREQ
    by_cases hab : a.value = b.value
    · simp [hab, (string_compare_eq_zero b.value b.value).2 rfl]
    · have hne : string_compare a.value b.value ≠ 0 :=
        fun h => hab ((string_compare_eq_zero _ _).1 h)
      simp [hab, hne]
  refine ⟨?_, key⟩
  rw [key, ne_eq, ← String.ext_iff]
  by_cases hab : a.value = b.value
  · simp [hab]
  · simp [hab]

/-- Scenario C: `"abc"` against `"abc"` passes, `"abc"` against `"abd"` throws
with the description made of the two literals. -/
theorem ASSERT_STREQ_compares_contents_witness :
    ASSERT_STREQ Scenario.abc Scenario.abc = ⟨[], none⟩
      ∧ ASSERT_STREQ Scenario.abc Scenario.abd
          = ⟨[], some ⟨"\"abc\" == \"abd\""⟩⟩ :=
  ⟨(ASSERT_STREQ_compares_contents Scenario.abc Scenario.abc).2,
   (ASSERT_STREQ_compares_contents Scenario.abc Scenario.abd).2⟩

/-- Claim C9, as stated, fails on the description: with `done` true,
`ASSERT_FALSE(done)` throws with the description `"done"`, while `ASSERT_TRUE`
of the negated condition throws with the description `"!(done)"`. -/
theorem ASSERT_FALSE_keeps_unnegated_text :
    (ASSERT_FALSE Scenario.done).thrown = some ⟨"done"⟩
      ∧ (ASSERT_FALSE_spec Scenario.done).thrown = some ⟨"!(done)"⟩
      ∧ ASSERT_FALSE Scenario.done ≠ ASSERT_FALSE_spec Scenario.done := by
  refine ⟨by decide, by decide, by decide⟩

/-- Claim C9, amended: `ASSERT_FALSE(c)` throws in the same cases as
`ASSERT_TRUE` of the negation of `c`, that is exactly when `c` is true, and
prints nothing either; the description it throws with is the text of `c`
itself, where `ASSERT_TRUE` of the negation carries the text of the negation. -/
theorem ASSERT_FALSE_raises_iff_true (c : Arg Bool) :
    ((ASSERT_FALSE c).thrown.isSome ↔ c.value = true)
      ∧ (ASSERT_FALSE c).thrown.isSome = (ASSERT_FALSE_spec c).thrown.isSome
      ∧ (ASSERT_FALSE c).cout = (ASSERT_FALSE_spec c).cout
      ∧ ASSERT_FALSE c = (if c.value then ⟨[], some ⟨c.spelling⟩⟩ else ⟨[], none⟩)
      ∧ ASSERT_FALSE_spec c
          = (if c.value then ⟨[], some ⟨"!(" ++ c.spelling ++ ")"⟩⟩ else ⟨[], none⟩) := by
  obtain ⟨sp, ex, v⟩ := c
  cases v
  · refine ⟨by simp [ASSERT_FALSE], rfl, rfl, rfl, rfl⟩
  · refine ⟨by simp [ASSERT_FALSE], rfl, rfl, rfl, rfl⟩

/-- With `done` true both throw; with `done` false neither does. -/
theorem ASSERT_FALSE_raises_iff_true_witness :
    (ASSERT_FALSE Scenario.done).thrown.isSome = (ASSERT_FALSE_spec Scenario.done).thrown.isSome
      ∧ ASSERT_FALSE (Arg.plain "done" false) = ⟨[], none⟩ :=
  ⟨(ASSERT_FALSE_raises_iff_true Scenario.done).2.1,
   (ASSERT_FALSE_raises_iff_true (Arg.plain "done" false)).2.2.2.1⟩

/-- Claim C10, as stated, fails on its last clause: the registry holds `Crash`
under the name `T`, a second entry named `T` is added and retained, and
`RunAllTests` executes only the first of the two, because the fault thrown by
the first body leaves `RunAllTests`. -/
theorem duplicate_after_fault_not_executed :
    (AddTest (⟨[⟨"T", Scenario.Crash.fn⟩], [], ()⟩ : Process Unit) Scenario.T.fn "T").1 = true
      ∧ (tests (AddTest (⟨[⟨"T", Scenario.Crash.fn⟩], [], ()⟩ : Process Unit)
            Scenario.T.fn "T").2).map Test.name = ["T", "T"]
      ∧ (RunAllTests (AddTest (⟨[⟨"T", Scenario.Crash.fn⟩], [], ()⟩ : Process Unit)
            Scenario.T.fn "T").2 FILE.stdout).invoked.length = 1
      ∧ (RunAllTests (AddTest (⟨[⟨"T", Scenario.Crash.fn⟩], [], ()⟩ : Process Unit)
            Scenario.T.fn "T").2 FILE.stdout).completion = .propagated "boom" := by
  refine ⟨rfl, by decide, by decide, by decide⟩

/-- Claim C10, amended: `AddTest` always succeeds: it returns `true` and leaves
the registry equal to the old one with the entry `(name, fn)` appended, earlier
entries unchanged and in place, whether or not the name is already present, and
it touches nothing else; when every body either returns normally or throws
`AssertFailedException`, `RunAllTests` then executes all the old entries and
the new one, so two entries of the same name are both executed. -/
theorem AddTest_appends (p : Process σ) (fn : σ → BodyResult σ) (name : String)
    (file : FILE) :
    (AddTest p fn name).1 = true
      ∧ tests (AddTest p fn name).2 = tests p ++ [⟨name, fn⟩]
      ∧ (∀ i, i < (tests p).length →
          (tests (AddTest p fn name).2)[i]? = (tests p)[i]?)
      ∧ (AddTest p fn name).2.log = p.log
      ∧ (AddTest p fn name).2.user = p.user
      ∧ ((∀ o ∈ outcomes (tests p ++ [⟨name, fn⟩]) p.user, o.isOther = false) →
          (RunAllTests (AddTest p fn name).2 file).invoked = tests p ++ [⟨name, fn⟩]) := by
  refine ⟨rfl, rfl, ?_, rfl, rfl, ?_⟩
  · intro i hi
    show (tests p ++ [⟨name, fn⟩])[i]? = (tests p)[i]?
    exact List.getElem?_append_left hi
  · intro h
    exact RunAllTests_invoked (AddTest p fn name).2 file h

/-- Two tests named `T`: both are kept and both are executed. -/
theorem AddTest_appends_witness :
    (∀ o ∈ outcomes (tests (⟨[Scenario.T], [], ()⟩ : Process Unit) ++ [⟨"T", Scenario.T_again.fn⟩])
        (), o.isOther = false)
      ∧ (RunAllTests (AddTest (⟨[Scenario.T], [], ()⟩ : Process Unit)
            Scenario.T_again.fn "T").2 FILE.stdout).invoked
          = [Scenario.T, ⟨"T", Scenario.T_again.fn⟩] :=
  ⟨by decide,
   (AddTest_appends (⟨[Scenario.T], [], ()⟩ : Process Unit) Scenario.T_again.fn "T"
      FILE.stdout).2.2.2.2.2 (by decide)⟩

/-- Claim C11, the code at the failing input: the registry already holds an
entry named `T`, `AddTest` is called with the name `T` once more, and the call
returns `true` and appends a second entry of that name, where the comment on
`AddTest` says it returns `false`. -/
theorem AddTest_returns_true_on_duplicate :
    hasName (⟨[Scenario.T], [], ()⟩ : Process Unit) "T" = true
      ∧ (AddTest (⟨[Scenario.T], [], ()⟩ : Process Unit) Scenario.T_again.fn "T").1 = true
      ∧ (tests (AddTest (⟨[Scenario.T], [], ()⟩ : Process Unit)
            Scenario.T_again.fn "T").2).map Test.name = ["T", "T"] := by
  refine ⟨by decide, rfl, by decide⟩

/-- Claim C12, as stated, fails: the body of `Differ` is `ASSERT_EQ(10, 11)`,
which throws `AssertFailedException` after writing its diagnostic, and the
output of the run has four lines, the `Actual values` line standing between
the `running` and the `failed` line, where the block of the claim has three. -/
theorem body_output_stands_in_the_block :
    (∀ o ∈ outcomes [Scenario.Differ] (), o.isOther = false)
      ∧ (RunAllTests (⟨[Scenario.Differ], [], ()⟩ : Process Unit) FILE.stdout).process.log
          = [⟨FILE.stdout, .running "Differ"⟩,
             ⟨FILE.stdout, .fromBody "Actual values: 10 != 11\n"⟩,
             ⟨FILE.stdout, .failed "Differ"⟩,
             ⟨FILE.stdout, .assertionFailed "10 == 11"⟩]
      ∧ transcript FILE.stdout [Scenario.Differ] ()
          = [⟨FILE.stdout, .running "Differ"⟩, ⟨FILE.stdout, .failed "Differ"⟩,
             ⟨FILE.stdout, .assertionFailed "10 == 11"⟩]
      ∧ (RunAllTests (⟨[Scenario.Differ], [], ()⟩ : Process Unit) FILE.stdout).process.log
          ≠ transcript FILE.stdout [Scenario.Differ] () := by
  refine ⟨by decide, by decide, by decide, by decide⟩

/-- Claim C12, amended: when every body either returns normally or throws
`AssertFailedException`, what the run adds to the log is, test by test in
registry order, the `running` line, whatever the body itself wrote, and then
the `ok` line, or the `failed` line followed by the `Assertion failed:` line
with the description; so the lines `RunAllTests` prints are exactly the
concatenation of one such block per test, and they are the whole output when
the bodies write nothing. -/
theorem RunAllTests_transcript (p : Process σ) (file : FILE)
    (h : ∀ o ∈ outcomes (tests p) p.user, o.isOther = false) :
    (RunAllTests p file).process.log = p.log ++ stream file (tests p) p.user
      ∧ runnerLines (RunAllTests p file).process.log
          = runnerLines p.log ++ transcript file (tests p) p.user
      ∧ ((∀ t ∈ tests p, ∀ v, (t.fn v).writes = []) →
          (RunAllTests p file).process.log = p.log ++ transcript file (tests p) p.user) := by
  have hlog : (RunAllTests p file).process.log = p.log ++ stream file (tests p) p.user :=
    loop_log file (tests p) ⟨0, p, []⟩ h
  refine ⟨hlog, ?_, ?_⟩
  · rw [hlog, runnerLines_append, runnerLines_stream]
  · intro hw
    rw [hlog, stream_eq_transcript file _ _ hw]

/-- The passing `T1`, then `Differ`: the block of `T1` is its `running` and
`ok` lines; the block of `Differ` is its `running` line, the line its body
wrote, and its `failed` and `Assertion failed:` lines. -/
theorem RunAllTests_transcript_witness :
    (∀ o ∈ outcomes [Scenario.T1, Scenario.Differ] (), o.isOther = false)
      ∧ (RunAllTests (⟨[Scenario.T1, Scenario.Differ], [], ()⟩ : Process Unit)
          FILE.stdout).process.log
        = [⟨FILE.stdout, .running "T1"⟩, ⟨FILE.stdout, .ok "T1"⟩,
           ⟨FILE.stdout, .running "Differ"⟩,
           ⟨FILE.stdout, .fromBody "Actual values: 10 != 11\n"⟩,
           ⟨FILE.stdout, .failed "Differ"⟩,
           ⟨FILE.stdout, .assertionFailed "10 == 11"⟩]
      ∧ runnerLines (RunAllTests (⟨[Scenario.T1, Scenario.Differ], [], ()⟩ : Process Unit)
          FILE.stdout).process.log
        = [⟨FILE.stdout, .running "T1"⟩, ⟨FILE.stdout, .ok "T1"⟩,
           ⟨FILE.stdout, .running "Differ"⟩, ⟨FILE.stdout, .failed "Differ"⟩,
           ⟨FILE.stdout, .assertionFailed "10 == 11"⟩] :=
  ⟨by decide,
   (RunAllTests_transcript (⟨[Scenario.T1, Scenario.Differ], [], ()⟩ : Process Unit)
      FILE.stdout (by decide)).1,
   (RunAllTests_transcript (⟨[Scenario.T1, Scenario.Differ], [], ()⟩ : Process Unit)
      FILE.stdout (by decide)).2.1⟩

/-- Claim C13: whenever the generated `main` evaluates the percentage, with
operands `num_failed` and `tests().size()`, the size is at least `1` (it is the
number of registry entries, and `num_failed` is not `0`), whatever the bodies
do. -/
theorem percentage_division_guarded (p : Process σ) (n size : Nat)
    (h : (TEST_MAIN p).division = some (n, size)) :
    1 ≤ size ∧ size = (tests p).length ∧ n ≠ 0 := by
  cases hc : (RunAllTests p FILE.stdout).completion with
  | propagated f =>
    simp [TEST_MAIN, hc] at h
  | returned k =>
    rw [TEST_MAIN_of_returned p k hc] at h
    split at h
    · simp at h
    · rename_i hk
      simp only [Option.some.injEq, Prod.mk.injEq] at h
      obtain ⟨hkn, hsz⟩ := h
      subst hkn hsz
      refine ⟨?_, rfl, hk⟩
      cases hts : tests p with
      | nil =>
        exfalso
        apply hk
        have : (RunAllTests p FILE.stdout).completion = .returned 0 := by
          simp [RunAllTests, hts, loop]
        rw [hc] at this
        injection this
      | cons t ts => simp

/-- Scenario A: the percentage is computed from one failure out of two tests. -/
theorem percentage_division_guarded_witness :
    (TEST_MAIN (⟨[Scenario.T1, Scenario.T2], [], ()⟩ : Process Unit)).division = some (1, 2)
      ∧ 1 ≤ 2 :=
  ⟨by decide,
   (percentage_division_guarded (⟨[Scenario.T1, Scenario.T2], [], ()⟩ : Process Unit) 1 2
      (by decide)).1⟩

/-- Claim C14: `RunAllTests` only reads the registry: whatever the bodies do
(they cannot register tests), `tests()` after the run is the same sequence as
before it, also after a second run, and after the generated `main`. -/
theorem RunAllTests_preserves_registry (p : Process σ) (file : FILE) :
    tests (RunAllTests p file).process = tests p
      ∧ tests (RunAllTests (RunAllTests p file).process file).process = tests p
      ∧ tests (TEST_MAIN p).process = tests p := by
  refine ⟨RunAllTests_tests p file, by rw [RunAllTests_tests, RunAllTests_tests], ?_⟩
  have hr := RunAllTests_tests p FILE.stdout
  unfold TEST_MAIN
  simp only
  split
  · exact hr
  · split
    · exact hr
    · exact hr

/-- Claim C15: when the bodies before the `k`-th entry `t` return normally or
throw `AssertFailedException` and the body of `t` throws another fault, that
fault leaves `RunAllTests`; the entries called are those up to `t`, none
after it; the log ends with the `running` line of `t` and what its body wrote,
with no `ok` or `failed` line for `t`; and the counter stands at the number
of failures before `t`. -/
theorem other_fault_propagates (p : Process σ) (file : FILE)
    (pre : List (Test σ)) (t : Test σ) (post : List (Test σ)) (fault : String)
    (hreg : tests p = pre ++ t :: post)
    (hsize : (tests p).length ≤ SIZE_MAX)
    (hpre : ∀ o ∈ outcomes pre p.user, o.isOther = false)
    (ht : (t.fn (userAfter pre p.user)).outcome = .throwsOther fault) :
    (RunAllTests p file).completion = .propagated fault
      ∧ (RunAllTests p file).invoked = pre ++ [t]
      ∧ (RunAllTests p file).process.log
          = p.log ++ stream file pre p.user ++ [printRunning t.name file]
              ++ bodyWrites (t.fn (userAfter pre p.user))
      ∧ runningNames (RunAllTests p file).process.log
          = runningNames p.log ++ pre.map Test.name ++ [t.name]
      ∧ statusNames (RunAllTests p file).process.log
          = statusNames p.log ++ pre.map Test.name
      ∧ (RunAllTests p file).num_failed
          = (outcomes pre p.user).countP Outcome.isAssertFailed
      ∧ (TEST_MAIN p).returned = none := by
  have hrun : RunAllTests p file
      = ⟨.propagated fault,
         ⟨p.tests_,
          p.log ++ stream file pre p.user ++ [printRunning t.name file]
            ++ bodyWrites (t.fn (userAfter pre p.user)),
          (t.fn (userAfter pre p.user)).state⟩,
         [] ++ pre ++ [t],
         (0 + (outcomes pre p.user).countP Outcome.isAssertFailed) % (SIZE_MAX + 1)⟩ := by
    unfold RunAllTests
    rw [hreg]
    exact loop_fault file pre t post ⟨0, p, []⟩ fault (Nat.zero_le _) hpre ht
  have hlen : pre.length ≤ SIZE_MAX := by
    rw [hreg] at hsize
    simp only [List.length_append, List.length_cons] at hsize
    omega
  have hmain : (TEST_MAIN p).returned = none := by
    have hstd : (RunAllTests p FILE.stdout).completion = .propagated fault := by
      unfold RunAllTests
      rw [hreg, loop_fault FILE.stdout pre t post ⟨0, p, []⟩ fault (Nat.zero_le _) hpre ht]
    simp [TEST_MAIN, hstd]
  rw [hrun]
  refine ⟨rfl, by simp, rfl, ?_, ?_, ?_, hmain⟩
  · simp only [runningNames_append, runningNames_stream]
    simp [runningNames, printRunning, bodyWrites, runningNames_fromBody]
  · simp only [statusNames_append, statusNames_stream file pre p.user hpre]
    simp [statusNames, printRunning, bodyWrites, statusNames_fromBody]
  · simp only [Nat.zero_add]
    exact Nat.mod_eq_of_lt (Nat.lt_succ_of_le (le_trans (countP_outcomes_le _ _) hlen))

/-- The failing `T2`, then `Crash`, then `T1`: the fault of `Crash` leaves the
run, `T1` is not called, and the counter stands at the one failure of `T2`. -/
theorem other_fault_propagates_witness :
    (tests (⟨[Scenario.T2, Scenario.Crash, Scenario.T1], [], ()⟩ : Process Unit)).length
        ≤ SIZE_MAX
      ∧ (∀ o ∈ outcomes [Scenario.T2] (), o.isOther = false)
      ∧ (Scenario.Crash.fn (userAfter [Scenario.T2] ())).outcome = .throwsOther "boom"
      ∧ (RunAllTests (⟨[Scenario.T2, Scenario.Crash, Scenario.T1], [], ()⟩ : Process Unit)
          FILE.stdout).completion = .propagated "boom"
      ∧ (RunAllTests (⟨[Scenario.T2, Scenario.Crash, Scenario.T1], [], ()⟩ : Process Unit)
          FILE.stdout).num_failed = 1 :=
  ⟨by decide, by decide, rfl,
   (other_fault_propagates
      (⟨[Scenario.T2, Scenario.Crash, Scenario.T1], [], ()⟩ : Process Unit) FILE.stdout
      [Scenario.T2] Scenario.Crash [Scenario.T1] "boom" rfl (by decide) (by decide) rfl).1,
   (other_fault_propagates
      (⟨[Scenario.T2, Scenario.Crash, Scenario.T1], [], ()⟩ : Process Unit) FILE.stdout
      [Scenario.T2] Scenario.Crash [Scenario.T1] "boom" rfl (by decide) (by decide)
      rfl).2.2.2.2.2.1⟩

/-- Claim C16: in a body that is a sequence of assertions, the first assertion
that fails ends the body.  The body throws exactly when some assertion fails;
what the body does is the same whatever follows the first failing assertion
(nothing after it is executed, nothing it would print appears); the runner
reports the description of that first failing assertion, and its counter rises
by exactly one for the test; a body none of whose assertions fails returns
normally and the counter is unchanged. -/
theorem first_failure_aborts_body (name : String) (pre : List Effect) (e : Effect)
    (x : AssertFailedException) (post : List Effect) (rest : List (Test σ))
    (s : LoopState σ) (file : FILE)
    (hpre : ∀ a ∈ pre, a.thrown = none) (he : e.thrown = some x) :
    (∀ (stmts : List Effect) (u : σ),
        ((bodyOf stmts u).outcome.isAssertFailed = true ↔ ∃ a ∈ stmts, a.thrown.isSome = true))
      ∧ (∀ u : σ, (bodyOf (pre ++ e :: post) u).outcome = .throwsAssertFailed x)
      ∧ (∀ u : σ, (bodyOf (pre ++ e :: post) u).writes
          = (couts (pre ++ [e])).map (fun text => (FILE.stdout, text)))
      ∧ (∀ u : σ, (bodyOf (pre ++ e :: post) u).state = u)
      ∧ loop file (⟨name, bodyOf (pre ++ e :: post)⟩ :: rest) s
          = loop file rest
              ⟨(s.num_failed + 1) % (SIZE_MAX + 1),
               ⟨s.process.tests_,
                s.process.log ++ [printRunning name file]
                  ++ (couts (pre ++ [e])).map (fun text => ⟨FILE.stdout, .fromBody text⟩)
                  ++ [printFailed name file, ⟨file, .assertionFailed x.what⟩],
                s.process.user⟩,
               s.invoked ++ [⟨name, bodyOf (pre ++ e :: post)⟩]⟩
      ∧ (RunAllTests ⟨[⟨name, bodyOf (pre ++ e :: post)⟩], s.process.log, s.process.user⟩
          file).completion = .returned 1
      ∧ (∀ stmts : List Effect, (∀ a ∈ stmts, a.thrown = none) →
          loop file (⟨name, bodyOf stmts⟩ :: rest) s
            = loop file rest
                ⟨s.num_failed,
                 ⟨s.process.tests_,
                  s.process.log ++ [printRunning name file]
                    ++ (couts stmts).map (fun text => ⟨FILE.stdout, .fromBody text⟩)
                    ++ [printOk name file],
                  s.process.user⟩,
                 s.invoked ++ [⟨name, bodyOf stmts⟩]⟩) := by
  have hrun := runStatements_of_first pre e x post hpre he
  have hout : ∀ u : σ, (bodyOf (pre ++ e :: post) u).outcome = .throwsAssertFailed x := by
    intro u
    simp [bodyOf, hrun]
  have hwr : ∀ u : σ, (bodyOf (pre ++ e :: post) u).writes
      = (couts (pre ++ [e])).map (fun text => (FILE.stdout, text)) := by
    intro u
    simp [bodyOf, hrun]
  have hloop := loop_cons_failed file ⟨name, bodyOf (pre ++ e :: post)⟩ rest s x
    (hout s.process.user)
  refine ⟨?_, hout, hwr, fun u => rfl, ?_, ?_, ?_⟩
  · intro stmts u
    rw [← runStatements_thrown_isSome]
    cases hth : (runStatements stmts).thrown with
    | none => simp [bodyOf, hth, Outcome.isAssertFailed]
    | some y => simp [bodyOf, hth, Outcome.isAssertFailed]
  · rw [hloop]
    simp [bodyWrites, bodyOf, hrun]
    rfl
  · have h1 := loop_cons_failed file ⟨name, bodyOf (pre ++ e :: post)⟩ []
      ⟨0, ⟨[⟨name, bodyOf (pre ++ e :: post)⟩], s.process.log, s.process.user⟩, []⟩ x
      (hout s.process.user)
    unfold RunAllTests
    simp only [tests]
    rw [h1]
    simp [loop, SIZE_MAX]
  · intro stmts hnone
    have hr := runStatements_of_none stmts hnone
    have ho : (bodyOf stmts s.process.user : BodyResult σ).outcome = .returns := by
      simp [bodyOf, hr]
    rw [loop_cons_returns file ⟨name, bodyOf stmts⟩ rest s ho]
    simp [bodyWrites, bodyOf, hr]
    rfl

/-- Test `Two`: the assertion `first` fails before the failing `ASSERT_EQ(10, 11)`;
the run reports `first`, prints no `Actual values` line, and counts one failure. -/
theorem first_failure_aborts_body_witness :
    (∀ a ∈ [ASSERT_TRUE (Arg.plain "1 == 1" (decide (1 = 1)))], a.thrown = none)
      ∧ (ASSERT_TRUE (Arg.plain "first" false)).thrown = some ⟨"first"⟩
      ∧ (RunAllTests (⟨[Scenario.Two], [], ()⟩ : Process Unit) FILE.stdout).completion
          = .returned 1
      ∧ (RunAllTests (⟨[Scenario.Two], [], ()⟩ : Process Unit) FILE.stdout).process.log
          = [⟨FILE.stdout, .running "Two"⟩, ⟨FILE.stdout, .failed "Two"⟩,
             ⟨FILE.stdout, .assertionFailed "first"⟩] :=
  ⟨by decide, by decide,
   (first_failure_aborts_body "Two"
      [ASSERT_TRUE (Arg.plain "1 == 1" (decide (1 = 1)))]
      (ASSERT_TRUE (Arg.plain "first" false)) ⟨"first"⟩
      [(ASSERT_EQ Scenario.intOps (Expr.plain "10" 10) (Expr.plain "11" 11) ()).1]
      ([] : List (Test Unit)) ⟨0, ⟨[Scenario.Two], [], ()⟩, []⟩ FILE.stdout
      (by decide) (by decide)).2.2.2.2.2.1,
   by decide⟩

/-- Claim C18: when every body either returns normally or throws
`AssertFailedException`, the value `RunAllTests` returns is at most
`tests().size()`, with equality exactly when every body throws; so when the
generated `main` computes the percentage, `0 < num_failed ≤ size` and the exact
quotient `100 * num_failed / size` is above `0` and at most `100`. -/
theorem failed_count_bounded (p : Process σ) (file : FILE)
    (hsize : (tests p).length ≤ SIZE_MAX)
    (h : ∀ o ∈ outcomes (tests p) p.user, o.isOther = false) :
    ∃ n, (RunAllTests p file).completion = .returned n
      ∧ n ≤ (tests p).length
      ∧ (n = (tests p).length ↔ ∀ o ∈ outcomes (tests p) p.user, o.isAssertFailed = true)
      ∧ ∀ k size, (TEST_MAIN p).division = some (k, size) →
          0 < k ∧ k ≤ size ∧ 0 < percentage k size ∧ percentage k size ≤ 100 := by
  refine ⟨_, RunAllTests_returned p file hsize h, countP_outcomes_le _ _, ?_, ?_⟩
  · rw [← outcomes_length (tests p) p.user, List.countP_eq_length]
  · intro k size hd
    rw [TEST_MAIN_of_returned p _ (RunAllTests_returned p FILE.stdout hsize h)] at hd
    split at hd
    · simp at hd
    · rename_i hne
      simp only [Option.some.injEq, Prod.mk.injEq] at hd
      obtain ⟨hk, hs⟩ := hd
      have hkpos : 0 < k := by
        rw [← hk]
        exact Nat.pos_of_ne_zero hne
      have hle : k ≤ size := by
        rw [← hk, ← hs]
        exact countP_outcomes_le _ _
      have hspos : 0 < size := lt_of_lt_of_le hkpos hle
      have hkq : (0 : ℚ) < (k : ℚ) := by exact_mod_cast hkpos
      have hsq : (0 : ℚ) < (size : ℚ) := by exact_mod_cast hspos
      have hleq : (k : ℚ) ≤ (size : ℚ) := by exact_mod_cast hle
      refine ⟨hkpos, hle, ?_, ?_⟩
      · unfold percentage
        exact div_pos (by linarith) hsq
      · unfold percentage
        rw [div_le_iff₀ hsq]
        linarith

/-- Scenario A: one failure out of two tests, reported as 50 percent. -/
theorem failed_count_bounded_witness :
    (tests (⟨[Scenario.T1, Scenario.T2], [], ()⟩ : Process Unit)).length ≤ SIZE_MAX
      ∧ (∀ o ∈ outcomes [Scenario.T1, Scenario.T2] (), o.isOther = false)
      ∧ (∃ n, (RunAllTests (⟨[Scenario.T1, Scenario.T2], [], ()⟩ : Process Unit)
              FILE.stdout).completion = .returned n
            ∧ n ≤ 2)
      ∧ percentage 1 2 = 50 := by
  obtain ⟨n, hn, hle, _⟩ := failed_count_bounded
    (⟨[Scenario.T1, Scenario.T2], [], ()⟩ : Process Unit) FILE.stdout (by decide) (by decide)
  exact ⟨by decide, by decide, ⟨n, hn, hle⟩, by norm_num [percentage]⟩

/-- Claim C19, as stated, fails: `SetFlag` sets a global that `CheckFlag`
asserts to be unset.  Each of the two registries `[SetFlag]` and `[CheckFlag]`
runs without a failure, and the registry `[SetFlag, CheckFlag]` runs with one. -/
theorem outcome_depends_on_earlier_test :
    (∀ o ∈ outcomes ([Scenario.SetFlag] ++ [Scenario.CheckFlag]) false, o.isOther = false)
      ∧ (RunAllTests (⟨[Scenario.SetFlag], [], false⟩ : Process Bool)
          FILE.stdout).completion = .returned 0
      ∧ (RunAllTests (⟨[Scenario.CheckFlag], [], false⟩ : Process Bool)
          FILE.stdout).completion = .returned 0
      ∧ (RunAllTests (⟨[Scenario.SetFlag] ++ [Scenario.CheckFlag], [], false⟩ : Process Bool)
          FILE.stdout).completion = .returned 1
      ∧ transcript FILE.stdout ([Scenario.SetFlag] ++ [Scenario.CheckFlag]) false
          ≠ transcript FILE.stdout [Scenario.SetFlag] false
              ++ transcript FILE.stdout [Scenario.CheckFlag] false := by
  refine ⟨by decide, by decide, by decide, by decide, by decide⟩

/-- Claim C19, amended: when every body either returns normally or throws
`AssertFailedException`, the run on `xs` followed by `ys` returns the failure
count of the run on `xs` plus that of the run on `ys` started from the user
state the run on `xs` leaves, and it writes what these two runs write one
after the other; its transcript is the transcript for `xs` followed by the
transcript for `ys` from that state.  When the outcomes of the bodies of `ys`
do not depend on the user state, that is the count and the transcript of `ys`
on its own. -/
theorem run_is_compositional (xs ys : List (Test σ)) (log : List Write) (u : σ)
    (file : FILE)
    (hsize : (xs ++ ys).length ≤ SIZE_MAX)
    (h : ∀ o ∈ outcomes (xs ++ ys) u, o.isOther = false) :
    ∃ nx ny,
      (RunAllTests ⟨xs, log, u⟩ file).completion = .returned nx
        ∧ (RunAllTests ⟨ys, (RunAllTests ⟨xs, log, u⟩ file).process.log,
              (RunAllTests ⟨xs, log, u⟩ file).process.user⟩ file).completion = .returned ny
        ∧ (RunAllTests ⟨xs ++ ys, log, u⟩ file).completion = .returned (nx + ny)
        ∧ (RunAllTests ⟨xs ++ ys, log, u⟩ file).process.log
            = (RunAllTests ⟨ys, (RunAllTests ⟨xs, log, u⟩ file).process.log,
                (RunAllTests ⟨xs, log, u⟩ file).process.user⟩ file).process.log
        ∧ transcript file (xs ++ ys) u
            = transcript file xs u
                ++ transcript file ys (RunAllTests ⟨xs, log, u⟩ file).process.user
        ∧ ((∀ t ∈ ys, ∀ a b, (t.fn a).outcome = (t.fn b).outcome) →
            (RunAllTests ⟨ys, log, u⟩ file).completion = .returned ny
              ∧ transcript file (xs ++ ys) u
                  = transcript file xs u ++ transcript file ys u) := by
  rw [outcomes_append] at h
  have hx : ∀ o ∈ outcomes xs u, o.isOther = false :=
    fun o ho => h o (List.mem_append_left _ ho)
  have hy : ∀ o ∈ outcomes ys (userAfter xs u), o.isOther = false :=
    fun o ho => h o (List.mem_append_right _ ho)
  have hxy : ∀ o ∈ outcomes (xs ++ ys) u, o.isOther = false := by
    rw [outcomes_append]
    exact h
  simp only [List.length_append] at hsize
  have hxsize : xs.length ≤ SIZE_MAX := by omega
  have hysize : ys.length ≤ SIZE_MAX := by omega
  have hxysize : (xs ++ ys).length ≤ SIZE_MAX := by
    simp only [List.length_append]
    exact hsize
  have hux : (RunAllTests ⟨xs, log, u⟩ file).process.user = userAfter xs u :=
    loop_user file xs ⟨0, ⟨xs, log, u⟩, []⟩ hx
  have hlx : (RunAllTests ⟨xs, log, u⟩ file).process.log = log ++ stream file xs u :=
    loop_log file xs ⟨0, ⟨xs, log, u⟩, []⟩ hx
  have hcx := RunAllTests_returned (⟨xs, log, u⟩ : Process σ) file hxsize hx
  have hcy := RunAllTests_returned
    (⟨ys, (RunAllTests ⟨xs, log, u⟩ file).process.log, userAfter xs u⟩ : Process σ) file
    hysize hy
  have hcxy := RunAllTests_returned (⟨xs ++ ys, log, u⟩ : Process σ) file hxysize hxy
  have hlxy : (RunAllTests ⟨xs ++ ys, log, u⟩ file).process.log
      = log ++ stream file (xs ++ ys) u :=
    loop_log file (xs ++ ys) ⟨0, ⟨xs ++ ys, log, u⟩, []⟩ hxy
  have hly : (RunAllTests ⟨ys, (RunAllTests ⟨xs, log, u⟩ file).process.log,
      userAfter xs u⟩ file).process.log
      = (RunAllTests ⟨xs, log, u⟩ file).process.log ++ stream file ys (userAfter xs u) :=
    loop_log file ys
      ⟨0, ⟨ys, (RunAllTests ⟨xs, log, u⟩ file).process.log, userAfter xs u⟩, []⟩ hy
  rw [hux]
  refine ⟨_, _, hcx, hcy, ?_, ?_, transcript_append file xs ys u, ?_⟩
  · rw [hcxy]
    simp only [tests, outcomes_append, List.countP_append]
  · rw [hlxy, hly, hlx, stream_append, List.append_assoc]
  · intro hind
    constructor
    · rw [RunAllTests_returned (⟨ys, log, u⟩ : Process σ) file hysize
        (by
          simp only [tests]
          rw [outcomes_of_independent ys u (userAfter xs u) hind]
          exact hy)]
      simp only [tests]
      rw [outcomes_of_independent ys u (userAfter xs u) hind]
    · rw [transcript_append, transcript_of_independent file ys u (userAfter xs u) hind]

/-- Scenario A split in two: `[T1]` followed by `[T2]` gives `0 + 1` failures. -/
theorem run_is_compositional_witness :
    ([Scenario.T1] ++ [Scenario.T2]).length ≤ SIZE_MAX
      ∧ (∀ o ∈ outcomes ([Scenario.T1] ++ [Scenario.T2]) (), o.isOther = false)
      ∧ (RunAllTests (⟨[Scenario.T1], [], ()⟩ : Process Unit) FILE.stdout).completion
          = .returned 0
      ∧ (RunAllTests (⟨[Scenario.T2], [], ()⟩ : Process Unit) FILE.stdout).completion
          = .returned 1
      ∧ ∃ nx ny,
          (RunAllTests (⟨[Scenario.T1], [], ()⟩ : Process Unit) FILE.stdout).completion
              = .returned nx
            ∧ (RunAllTests (⟨[Scenario.T1] ++ [Scenario.T2], [], ()⟩ : Process Unit)
                FILE.stdout).completion = .returned (nx + ny) := by
  obtain ⟨nx, ny, h1, _, h3, _⟩ := run_is_compositional
    [Scenario.T1] [Scenario.T2] [] () FILE.stdout (by decide) (by decide)
  exact ⟨by decide, by decide, by decide, by decide, nx, ny, h1, h3⟩

end Claims

end mt
